import Mathlib

/-!
# ROM analysis client: overlay rendering and frame transport

A shallow embedding of the two demo screens of the repository,
`HttpPoseAnalysis.jsx` (polling transport) and `ROMAnalysisDemo.jsx`
(streaming transport).

Conventions of the embedding:

* JavaScript numbers are idealised as rationals (`ℚ`); clock readings of
  `Date.now()` are integers (`Int`).
* A 2-D canvas context is modelled by the list of calls issued on it
  (`DrawOp`), in the order the source issues them.
* Template strings that format numbers with `toFixed` are kept symbolic
  (`Label`), so that no float formatting has to be modelled.
* A JavaScript object literal used as a lookup table is modelled by its own
  keys (an association list). The connection tables are read at the fixed
  names written in the source, and the entry of the colour table is used only
  under a test `bodyPart === 'lower_back'` or `bodyPart === 'elbow'`, both
  own keys. The table of normal ranges is read at whatever names `bodyPart`
  and `movementType` hold, with no such test: there the
  properties inherited from `Object.prototype` are modelled as well
  (`Demo.getNormalRangeValue`), and the own-key reading
  (`Demo.getNormalRange`) is the value for names that are not inherited ones,
  which is all that the two `<select>` controls produce.
* React state and refs are fields of an explicit state record; a function that
  mutates them returns the new record. Values captured by a `useCallback`
  closure are explicit parameters.
-/

namespace RomAnalysis

/-! ## Data model -/

/-- Named 2-D point `{x, y}` of the response's `keypoints` object. -/
structure Keypoint where
  x : ℚ
  y : ℚ
deriving DecidableEq, Repr

/-- The `keypoints` object: its entries in `Object.entries` order. -/
abbrev KeypointMap := List (String × Keypoint)

/-- Property read `keypoints[name]`; `none` is `undefined`. -/
def KeypointMap.get (keypoints : KeypointMap) (name : String) : Option Keypoint :=
  List.lookup name keypoints

/-- The `angles` object, restricted to the two entries the renderers read. -/
structure AngleSet where
  trunk : Option ℚ
  elbow : Option ℚ
deriving DecidableEq, Repr

/-- The `rom` object of a result. -/
structure RomSample where
  current : ℚ
  min : ℚ
  max : ℚ
  range : ℚ
deriving DecidableEq, Repr

/-- A canvas element, as far as the renderers read it. -/
structure Canvas where
  width : ℚ
  height : ℚ
deriving DecidableEq, Repr

/-- Texts passed to `fillText`, with the numbers they interpolate. -/
inductive Label where
  /-- The literal `'No pose detected'`. -/
  | noPose
  /-- The template `ROM: ${current.toFixed(1)}°`. -/
  | rom (current : ℚ)
  /-- The template `Range: ${min.toFixed(1)}° - ${max.toFixed(1)}°`. -/
  | range (min max : ℚ)
  /-- The template `Total: ${range.toFixed(1)}°`. -/
  | total (range : ℚ)
  /-- The template `${angle.toFixed(1)}°`. -/
  | angle (degrees : ℚ)
  /-- The template `Processing: ${processingTime}ms`. -/
  | processing (ms : Int)
deriving DecidableEq, Repr

/-- The angular extent of an `arc` call. -/
inductive ArcSpan where
  /-- From `0` to `2 * Math.PI`. -/
  | full
  /-- From `-Math.PI / 2` to `-Math.PI / 2 + degrees * Math.PI / 180`. -/
  | fromVertical (degrees : ℚ)
deriving DecidableEq, Repr

/-- One call (or property assignment) on a 2-D canvas context. -/
inductive DrawOp where
  | clearRect (x y w h : ℚ)
  | strokeStyle (s : String)
  | fillStyle (s : String)
  | lineWidth (w : ℚ)
  | font (s : String)
  | textAlign (s : String)
  | shadowColor (s : String)
  | shadowBlur (b : ℚ)
  | beginPath
  | moveTo (x y : ℚ)
  | lineTo (x y : ℚ)
  | arc (x y r : ℚ) (span : ArcSpan)
  | stroke
  | fill
  | fillRect (x y w h : ℚ)
  | fillText (text : Label) (x y : ℚ)
  | save
  | restore
deriving DecidableEq, Repr

/-! ## Skeleton edges (both screens) -/

/-- Body of the `skeletonConnections.forEach` callback: the four calls that
draw one edge when `keypoints[start] && keypoints[end]`, nothing otherwise. -/
def drawConnection (keypoints : KeypointMap) (edge : String × String) : List DrawOp :=
  match keypoints.get edge.1, keypoints.get edge.2 with
  | some s, some e =>
      [DrawOp.beginPath, DrawOp.moveTo s.x s.y, DrawOp.lineTo e.x e.y, DrawOp.stroke]
  | _, _ => []

/-- The loop `skeletonConnections.forEach(([start, end]) => ...)`. -/
def drawConnections (table : List (String × String)) (keypoints : KeypointMap) : List DrawOp :=
  table.flatMap (drawConnection keypoints)

/-- The loop `Object.entries(keypoints).forEach(...)` drawing one filled
circle of the given radius per keypoint. -/
def drawKeypoints (radius : ℚ) (keypoints : KeypointMap) : List DrawOp :=
  keypoints.flatMap fun entry =>
    [DrawOp.beginPath, DrawOp.arc entry.2.x entry.2.y radius ArcSpan.full, DrawOp.fill]

/-- The "no pose" branch shared by both result handlers: clear the overlay and
write the centred placeholder. -/
def drawNoPose (canvas : Option Canvas) : List DrawOp :=
  match canvas with
  | none => []
  | some c =>
      [DrawOp.clearRect 0 0 c.width c.height,
       DrawOp.fillStyle "rgba(255, 0, 0, 0.8)",
       DrawOp.font "bold 24px Arial",
       DrawOp.textAlign "center",
       DrawOp.fillText Label.noPose (c.width / 2) (c.height / 2),
       DrawOp.textAlign "left"]

/-! ## HttpPoseAnalysis.jsx: renderer -/

namespace Http

/-- The table `skeletonConnections` of `HttpPoseAnalysis.jsx`. -/
def skeletonConnections : List (String × String) :=
  [("LShoulder", "RShoulder"),
   ("LShoulder", "LElbow"),
   ("LElbow", "LWrist"),
   ("RShoulder", "RElbow"),
   ("RElbow", "RWrist"),
   ("LShoulder", "LHip"),
   ("RShoulder", "RHip"),
   ("LHip", "RHip"),
   ("LHip", "LKnee"),
   ("LKnee", "LAnkle"),
   ("RHip", "RKnee"),
   ("RKnee", "RAnkle"),
   ("Neck", "Hip"),
   ("Neck", "Head")]

/-- The block `if (currentRom) { ... }` of `drawSkeleton`. -/
def drawRomInfo (currentRom : Option RomSample) : List DrawOp :=
  match currentRom with
  | none => []
  | some rom =>
      [DrawOp.fillStyle "rgba(0, 0, 0, 0.8)",
       DrawOp.fillRect 10 10 250 100,
       DrawOp.fillStyle "#ffffff",
       DrawOp.font "bold 20px Arial",
       DrawOp.fillText (Label.rom rom.current) 20 40,
       DrawOp.font "16px Arial",
       DrawOp.fillText (Label.range rom.min rom.max) 20 70,
       DrawOp.fillText (Label.total rom.range) 20 95]

/-- The block `if (bodyPart === 'lower_back' && angles?.trunk !== undefined)`
of `drawSkeleton`. -/
def drawTrunkAngle (bodyPart : String) (keypoints : KeypointMap)
    (angles : Option AngleSet) : List DrawOp :=
  if bodyPart = "lower_back" then
    match angles.bind AngleSet.trunk with
    | none => []
    | some trunk =>
        match keypoints.get "Neck", keypoints.get "Hip" with
        | some neck, some hip =>
            [DrawOp.strokeStyle "#00ffff",
             DrawOp.lineWidth 4,
             DrawOp.beginPath,
             DrawOp.moveTo neck.x neck.y,
             DrawOp.lineTo hip.x hip.y,
             DrawOp.stroke,
             DrawOp.fillStyle "#00ffff",
             DrawOp.font "bold 24px Arial",
             DrawOp.fillText (Label.angle trunk)
               ((neck.x + hip.x) / 2 + 20) ((neck.y + hip.y) / 2)]
        | _, _ => []
  else []

/-- The callback `drawSkeleton(keypoints, angles)` of `HttpPoseAnalysis.jsx`.
`canvas` is `overlayCanvasRef.current`; `currentRom` and `bodyPart` are the
values captured by the `useCallback` closure; `keypoints = none` is a falsy
argument. The result is the list of calls issued on the overlay context. -/
def drawSkeleton (canvas : Option Canvas) (currentRom : Option RomSample)
    (bodyPart : String) (keypoints : Option KeypointMap)
    (angles : Option AngleSet) : List DrawOp :=
  match canvas with
  | none => []
  | some c =>
      DrawOp.clearRect 0 0 c.width c.height ::
        (match keypoints with
         | none => []
         | some kp =>
             if kp.length = 0 then []
             else
               [DrawOp.strokeStyle "#00ff00", DrawOp.lineWidth 3]
                 ++ drawConnections skeletonConnections kp
                 ++ [DrawOp.fillStyle "#ff0000"]
                 ++ drawKeypoints 5 kp
                 ++ drawRomInfo currentRom
                 ++ drawTrunkAngle bodyPart kp angles)

end Http

/-! ## ROMAnalysisDemo.jsx: renderer -/

namespace Demo

/-- The table `skeletonConnections` of `ROMAnalysisDemo.jsx`. -/
def skeletonConnections : List (String × String) :=
  [("LShoulder", "RShoulder"),
   ("LShoulder", "LElbow"),
   ("LElbow", "LWrist"),
   ("RShoulder", "RElbow"),
   ("RElbow", "RWrist"),
   ("LShoulder", "LHip"),
   ("RShoulder", "RHip"),
   ("LHip", "RHip"),
   ("LHip", "LKnee"),
   ("LKnee", "LAnkle"),
   ("RHip", "RKnee"),
   ("RKnee", "RAnkle"),
   ("Neck", "Hip"),
   ("Neck", "Head"),
   ("LAnkle", "LBigToe"),
   ("RAnkle", "RBigToe")]

/-- One entry of `movementColors`. -/
structure Colors where
  primary : String
  secondary : String
deriving DecidableEq, Repr

/-- The table `movementColors`; `none` is `undefined`. -/
def movementColors (bodyPart : String) : Option Colors :=
  List.lookup bodyPart
    [("lower_back", { primary := "#00ffff", secondary := "#0088ff" }),
     ("shoulder", { primary := "#ff00ff", secondary := "#ff0088" }),
     ("elbow", { primary := "#ffff00", secondary := "#ff8800" }),
     ("hip", { primary := "#00ff00", secondary := "#00ff88" }),
     ("knee", { primary := "#ff8888", secondary := "#ff4444" }),
     ("ankle", { primary := "#88ff88", secondary := "#44ff44" })]

/-- The literal `ranges` of `getNormalRange`, as (bodyPart, movementType,
[lo, hi]) rows in source order. -/
def ranges : List (String × List (String × (ℚ × ℚ))) :=
  [("lower_back",
      [("flexion", (0, 60)), ("extension", (-30, 0)),
       ("lateral_flexion", (-30, 30)), ("rotation", (-45, 45))]),
   ("shoulder",
      [("flexion", (0, 180)), ("extension", (0, 60)),
       ("abduction", (0, 180)), ("adduction", (0, 45))]),
   ("elbow", [("flexion", (0, 145)), ("extension", (0, 10))]),
   ("hip", [("flexion", (0, 120)), ("extension", (0, 30)), ("abduction", (0, 45))]),
   ("knee", [("flexion", (0, 135)), ("extension", (0, 10))]),
   ("ankle", [("dorsiflexion", (0, 20)), ("plantarflexion", (0, 50))])]

/-- The function `getNormalRange`,
`ranges[bodyPart]?.[movementType] || [0, 90]`, read on the own keys of the
two object literals: the array it returns when neither `bodyPart` nor
`movementType` is the name of a property inherited from `Object.prototype`
(`objectPrototypeKeys`), which is the case for every option of the two
`<select>` controls. An array is always truthy, so the default is then taken
exactly when one of the two lookups is `undefined`. The value on every pair
of names, inherited ones included, is `getNormalRangeValue`. -/
def getNormalRange (bodyPart movementType : String) : ℚ × ℚ :=
  match (List.lookup bodyPart ranges).bind (List.lookup movementType) with
  | some r => r
  | none => (0, 90)

/-- The marker position of the gauge:
`20 + Math.max(0, Math.min(rangeWidth, normalizedPos * rangeWidth))` with
`rangeWidth = 250` and
`normalizedPos = (current - normalRange[0]) / (normalRange[1] - normalRange[0])`. -/
def markerX (lo hi current : ℚ) : ℚ :=
  20 + max 0 (min 250 ((current - lo) / (hi - lo) * 250))

/-- The names of the properties that every object literal inherits from an
unmodified `Object.prototype`: those of ECMAScript and the legacy accessors
that browsers ship. None of them is a key of `ranges` or of one of its rows. -/
def objectPrototypeKeys : List String :=
  ["constructor", "hasOwnProperty", "isPrototypeOf", "propertyIsEnumerable",
   "toLocaleString", "toString", "valueOf", "__proto__", "__defineGetter__",
   "__defineSetter__", "__lookupGetter__", "__lookupSetter__"]

/-- A value of the expression `ranges[bodyPart]?.[movementType] || [0, 90]`. -/
inductive RangeValue where
  /-- An array `[lo, hi]`: an entry of the table, or the default. -/
  | range (r : ℚ × ℚ)
  /-- A truthy value reached through an inherited property: a built-in
  function or object (such as `Object`, the value of `constructor`), or a
  truthy property of one. It is not an array of numbers: its elements `[0]`
  and `[1]` are `undefined` or a letter, and convert to `NaN`. -/
  | builtin
deriving DecidableEq, Repr

/-- The function `getNormalRange` on every pair of names:
`ranges[bodyPart]?.[movementType] || [0, 90]`, where a property read finds an
own key of the literal first and a property inherited from `Object.prototype`
otherwise.

* `ranges[bodyPart]` is the row of an own key, the built-in value
  `Object.prototype[bodyPart]` for an inherited name, and `undefined`
  otherwise (then `?.` yields `undefined` and the default is taken).
* On a row, `[movementType]` is the array of an own key, the built-in value
  `Object.prototype[movementType]` for an inherited name (a function or, for
  `__proto__`, the prototype object: always truthy), and `undefined`
  otherwise.
* On a built-in value, the properties are those of the JavaScript runtime,
  not of this repository: `builtinTruthy bodyPart movementType` tells whether
  `Object.prototype[bodyPart][movementType]` is truthy. -/
def getNormalRangeValue (builtinTruthy : String → String → Bool)
    (bodyPart movementType : String) : RangeValue :=
  match List.lookup bodyPart ranges with
  | some movements =>
      match List.lookup movementType movements with
      | some r => RangeValue.range r
      | none =>
          if movementType ∈ objectPrototypeKeys then RangeValue.builtin
          else RangeValue.range (0, 90)
  | none =>
      if bodyPart ∈ objectPrototypeKeys ∧ builtinTruthy bodyPart movementType = true then
        RangeValue.builtin
      else RangeValue.range (0, 90)

/-- The marker position `markerX` that the overlay computes from the value
`normalRange` of `getNormalRange`; `none` is `NaN`. With an array `[lo, hi]`
it is `20 + Math.max(0, Math.min(250, (current - lo) / (hi - lo) * 250))`,
where a division by zero gives `Infinity` (clamped to `250`), `-Infinity`
(clamped to `0`) or, for `0 / 0`, `NaN`. With a built-in value both
`normalRange[0]` and `normalRange[1]` convert to `NaN`, and so does the
result. -/
def markerPosition (normalRange : RangeValue) (current : ℚ) : Option ℚ :=
  match normalRange with
  | RangeValue.range r =>
      if r.2 - r.1 = 0 then
        if current - r.1 = 0 then none
        else if 0 < current - r.1 then some 270
        else some 20
      else some (markerX r.1 r.2 current)
  | RangeValue.builtin => none

/-- The values captured by the `drawSkeleton` closure of `ROMAnalysisDemo.jsx`
(its dependency list, and the `movementType` seen by the `getNormalRange` of
the same render). -/
structure RenderEnv where
  romData : Option RomSample
  bodyPart : String
  movementType : String
  processingTime : Int
deriving DecidableEq, Repr

/-- The block `if (romData) { ... }` of `drawSkeleton`: info box, bar and
marker. The normal range is the array `getNormalRange` of the own-key
reading, as returned for a body part and movement type that are not inherited
property names; for the other names see `getNormalRangeValue` and
`markerPosition`. -/
def drawRomOverlay (env : RenderEnv) : List DrawOp :=
  match env.romData with
  | none => []
  | some rom =>
      let normalRange := getNormalRange env.bodyPart env.movementType
      let isNormal : Bool := decide (rom.current ≥ normalRange.1 ∧ rom.current ≤ normalRange.2)
      let x := markerX normalRange.1 normalRange.2 rom.current
      [DrawOp.fillStyle "rgba(0, 0, 0, 0.8)",
       DrawOp.fillRect 10 10 280 140,
       DrawOp.fillStyle "#ffffff",
       DrawOp.font "bold 20px Arial",
       DrawOp.fillText (Label.rom rom.current) 20 40,
       DrawOp.font "16px Arial",
       DrawOp.fillText (Label.range rom.min rom.max) 20 70,
       DrawOp.fillText (Label.total rom.range) 20 95,
       DrawOp.fillStyle (if isNormal then "#00ff00" else "#ff9900"),
       DrawOp.fillRect 20 110 250 20,
       DrawOp.fillStyle "#ffffff",
       DrawOp.beginPath,
       DrawOp.moveTo x 105,
       DrawOp.lineTo (x - 5) 110,
       DrawOp.lineTo (x + 5) 110,
       DrawOp.fill]

/-- The block "Highlight movement-specific connections" of `drawSkeleton`.
Reading `colors.primary` when `colors` is `undefined` throws. -/
def drawHighlight (bodyPart : String) (colors : Option Colors)
    (keypoints : KeypointMap) : Except String (List DrawOp) :=
  if bodyPart = "lower_back" then
    match keypoints.get "Neck", keypoints.get "Hip" with
    | some neck, some hip =>
        match colors with
        | none => Except.error "TypeError"
        | some c =>
            Except.ok
              [DrawOp.strokeStyle c.primary,
               DrawOp.lineWidth 4,
               DrawOp.beginPath,
               DrawOp.moveTo neck.x neck.y,
               DrawOp.lineTo hip.x hip.y,
               DrawOp.stroke]
    | _, _ => Except.ok []
  else Except.ok []

/-- The lower-back block of `drawAngleVisualization`. -/
def drawTrunkArc (bodyPart : String) (colors : Option Colors)
    (keypoints : KeypointMap) (angles : AngleSet) : Except String (List DrawOp) :=
  if bodyPart = "lower_back" then
    match angles.trunk with
    | none => Except.ok []
    | some trunk =>
        match keypoints.get "Neck", keypoints.get "Hip" with
        | some neck, some hip =>
            match colors with
            | none => Except.error "TypeError"
            | some c =>
                Except.ok
                  [DrawOp.strokeStyle c.primary,
                   DrawOp.lineWidth 3,
                   DrawOp.beginPath,
                   DrawOp.arc ((neck.x + hip.x) / 2) ((neck.y + hip.y) / 2) 60
                     (ArcSpan.fromVertical trunk),
                   DrawOp.stroke,
                   DrawOp.fillStyle c.primary,
                   DrawOp.font "bold 24px Arial",
                   DrawOp.shadowColor "black",
                   DrawOp.shadowBlur 4,
                   DrawOp.fillText (Label.angle trunk)
                     ((neck.x + hip.x) / 2 + 70) ((neck.y + hip.y) / 2)]
        | _, _ => Except.ok []
  else Except.ok []

/-- The elbow block of `drawAngleVisualization`. -/
def drawElbowAngle (bodyPart : String) (colors : Option Colors)
    (keypoints : KeypointMap) (angles : AngleSet) : Except String (List DrawOp) :=
  if bodyPart = "elbow" then
    match angles.elbow with
    | none => Except.ok []
    | some elbowAngle =>
        match keypoints.get "RShoulder", keypoints.get "RElbow", keypoints.get "RWrist" with
        | some shoulder, some elbow, some wrist =>
            match colors with
            | none => Except.error "TypeError"
            | some c =>
                Except.ok
                  [DrawOp.strokeStyle c.primary,
                   DrawOp.lineWidth 3,
                   DrawOp.beginPath,
                   DrawOp.moveTo shoulder.x shoulder.y,
                   DrawOp.lineTo elbow.x elbow.y,
                   DrawOp.lineTo wrist.x wrist.y,
                   DrawOp.stroke,
                   DrawOp.fillStyle c.primary,
                   DrawOp.font "bold 20px Arial",
                   DrawOp.fillText (Label.angle elbowAngle) (elbow.x + 20) (elbow.y - 20)]
        | _, _, _ => Except.ok []
  else Except.ok []

/-- The function `drawAngleVisualization(ctx, keypoints, angles, colors)`. -/
def drawAngleVisualization (bodyPart : String) (colors : Option Colors)
    (keypoints : KeypointMap) (angles : AngleSet) : Except String (List DrawOp) :=
  match drawTrunkArc bodyPart colors keypoints angles with
  | Except.error e => Except.error e
  | Except.ok trunkOps =>
      match drawElbowAngle bodyPart colors keypoints angles with
      | Except.error e => Except.error e
      | Except.ok elbowOps =>
          Except.ok ([DrawOp.save] ++ trunkOps ++ elbowOps ++ [DrawOp.restore])

/-- The block `if (angles) { drawAngleVisualization(...) }` of
`drawSkeleton`. -/
def drawAngles (bodyPart : String) (colors : Option Colors)
    (keypoints : KeypointMap) (angles : Option AngleSet) : Except String (List DrawOp) :=
  match angles with
  | none => Except.ok []
  | some a => drawAngleVisualization bodyPart colors keypoints a

/-- The "Performance indicator" lines closing `drawSkeleton`. -/
def drawPerformance (c : Canvas) (processingTime : Int) : List DrawOp :=
  [DrawOp.fillStyle (if processingTime > 100 then "#ff0000" else "#00ff00"),
   DrawOp.font "12px Arial",
   DrawOp.fillText (Label.processing processingTime) (c.width - 120) 20]

/-- The callback `drawSkeleton(keypoints, angles)` of `ROMAnalysisDemo.jsx`.
`canvas` is `overlayCanvasRef.current` and `video` tells whether
`videoRef.current` is set. `canvas.getContext` is read before the null test,
so a missing canvas throws. The result is the list of calls issued on the
overlay context. -/
def drawSkeleton (canvas : Option Canvas) (video : Bool) (env : RenderEnv)
    (keypoints : Option KeypointMap) (angles : Option AngleSet) :
    Except String (List DrawOp) :=
  match canvas with
  | none => Except.error "TypeError"
  | some c =>
      if video = false then Except.ok []
      else
        match keypoints with
        | none => Except.ok [DrawOp.clearRect 0 0 c.width c.height]
        | some kp =>
            if kp.length = 0 then Except.ok [DrawOp.clearRect 0 0 c.width c.height]
            else
              let colors := movementColors env.bodyPart
              match drawHighlight env.bodyPart colors kp with
              | Except.error e => Except.error e
              | Except.ok highlight =>
                  match drawAngles env.bodyPart colors kp angles with
                  | Except.error e => Except.error e
                  | Except.ok angleOps =>
                      Except.ok
                        ([DrawOp.clearRect 0 0 c.width c.height,
                          DrawOp.strokeStyle "rgba(0, 255, 0, 0.6)",
                          DrawOp.lineWidth 2]
                          ++ drawConnections skeletonConnections kp
                          ++ highlight
                          ++ [DrawOp.fillStyle "#ff0000"]
                          ++ drawKeypoints 4 kp
                          ++ angleOps
                          ++ drawRomOverlay env
                          ++ drawPerformance c env.processingTime)

end Demo

/-! ## The timestamp map (a JavaScript `Map`, insertion ordered) -/

/-- The `Map` held by `sendTimestamps.current`: its entries in insertion
order. -/
abbrev TimestampMap := List (String × Int)

namespace TimestampMap

/-- The method `Map.prototype.has`. -/
def has (m : TimestampMap) (id : String) : Bool :=
  (List.lookup id m).isSome

/-- The method `Map.prototype.get`; `none` is `undefined`. -/
def get (m : TimestampMap) (id : String) : Option Int :=
  List.lookup id m

/-- The method `Map.prototype.set`: an existing key keeps its position and
takes the new value, a new key is appended. -/
def set : TimestampMap → String → Int → TimestampMap
  | [], id, t => [(id, t)]
  | (k, v) :: rest, id, t =>
      if k = id then (k, t) :: rest else (k, v) :: set rest id t

/-- The method `Map.prototype.delete`. -/
def delete (m : TimestampMap) (id : String) : TimestampMap :=
  m.filter fun entry => !(entry.1 == id)

/-- The property `Map.prototype.size`. -/
def size (m : TimestampMap) : Nat :=
  m.length

/-- The statement
`entries.slice(0, 50).forEach(([id]) => sendTimestamps.current.delete(id))`
with `entries = Array.from(sendTimestamps.current.entries())`. -/
def cleanOld (m : TimestampMap) : TimestampMap :=
  (m.take 50).foldl (fun acc entry => delete acc entry.1) m

end TimestampMap

/-! ## Results and messages -/

/-- The object stored by `setPoseData`. -/
structure PoseData where
  angles : Option AngleSet
  confidence : Option ℚ
  validation : Option String
  guidance : Option String
deriving DecidableEq, Repr

/-- A parsed result object (the HTTP response body, or an inbound socket
message), as far as the handlers read it. An absent field is `none`; the
`error` and `frame_id` fields are strings, truthy when non-empty. -/
structure Message where
  frame_id : Option String
  error : Option String
  rom : Option RomSample
  pose_detected : Bool
  pose_confidence : Option ℚ
  angles : Option AngleSet
  validation : Option String
  guidance : Option String
  keypoints : Option KeypointMap
deriving DecidableEq, Repr

/-- Truthiness of a field holding a string or `undefined`. -/
def truthy (field : Option String) : Bool :=
  match field with
  | none => false
  | some s => !(s == "")

/-! ## ROMAnalysisDemo.jsx: socket, state and handlers -/

namespace Demo

/-- The `readyState` of a `WebSocket`. -/
inductive ReadyState where
  | connecting
  | isOpen
  | closing
  | closed
deriving DecidableEq, Repr

/-- The object built by `captureAndSendFrame` and passed to `send` (after
`JSON.stringify`). -/
structure OutMessage where
  frame_base64 : String
  body_part : String
  movement_type : String
  include_keypoints : Bool
  frame_id : String
deriving DecidableEq, Repr

/-- The socket held by `wsRef.current`. -/
structure Socket where
  readyState : ReadyState
deriving DecidableEq, Repr

/-- The method `WebSocket.send`: throws while the socket is still connecting,
transmits when open, discards the data when closing or closed. The result is
the list of messages put on the wire. -/
def Socket.send (ws : Socket) (message : OutMessage) : Except String (List OutMessage) :=
  match ws.readyState with
  | ReadyState.connecting => Except.error "InvalidStateError"
  | ReadyState.isOpen => Except.ok [message]
  | ReadyState.closing => Except.ok []
  | ReadyState.closed => Except.ok []

/-- The video element, as far as `captureAndSendFrame` reads it:
`enoughData` is `video.readyState === video.HAVE_ENOUGH_DATA`. -/
structure Video where
  enoughData : Bool
deriving DecidableEq, Repr

/-- State and refs of the `ROMAnalysisDemo` component. `closeCalls` counts the
calls of `close()` made on sockets so far. -/
structure State where
  isConnected : Bool
  isStreaming : Bool
  bodyPart : String
  movementType : String
  romData : Option RomSample
  poseData : Option PoseData
  error : Option String
  fps : Nat
  processingTime : Int
  lastJsonResponse : Option Message
  framesSent : Nat
  framesReceived : Nat
  video : Option Video
  canvas : Option Canvas
  overlayCanvas : Option Canvas
  wsRef : Option Socket
  closeCalls : Nat
  frameCount : Nat
  lastFpsTime : Int
  sendTimestamps : TimestampMap
deriving DecidableEq, Repr

/-- What one run of `captureAndSendFrame` observes outside the component
state: the three readings of `Date.now()` (frame id, send timestamp, FPS
clock), whether the captured canvas has a non-zero pixel, and the encoded
frame. -/
structure CaptureEnv where
  idClock : Int
  sendClock : Int
  fpsClock : Int
  hasContent : Bool
  frameData : String
deriving DecidableEq, Repr

/-- The callback `captureAndSendFrame`. Returns the new state and the
messages transmitted on the socket, or the error thrown. -/
def captureAndSendFrame (env : CaptureEnv) (s : State) :
    Except String (State × List OutMessage) :=
  match s.wsRef with
  | none => Except.ok (s, [])
  | some ws =>
      if ws.readyState ≠ ReadyState.isOpen then Except.ok (s, [])
      else
        match s.video, s.canvas with
        | some video, some _ =>
            if video.enoughData = false then Except.ok (s, [])
            else if env.hasContent = false then Except.ok (s, [])
            else
              let frameId := toString env.idClock
              let s1 := { s with sendTimestamps := s.sendTimestamps.set frameId env.sendClock }
              let message : OutMessage :=
                { frame_base64 := env.frameData
                  body_part := s.bodyPart
                  movement_type := s.movementType
                  include_keypoints := true
                  frame_id := frameId }
              match ws.send message with
              | Except.error e => Except.error e
              | Except.ok wire =>
                  let s2 := { s1 with framesSent := s1.framesSent + 1 }
                  let count := s2.frameCount + 1
                  if env.fpsClock - s2.lastFpsTime ≥ 1000 then
                    Except.ok
                      ({ s2 with fps := count, frameCount := 0, lastFpsTime := env.fpsClock },
                       wire)
                  else Except.ok ({ s2 with frameCount := count }, wire)
        | _, _ => Except.ok (s, [])

/-- The block "Calculate processing time if frame_id exists" of the
`onmessage` handler. -/
def resolveTimestamp (now : Int) (frame_id : Option String) (s : State) : State :=
  match frame_id with
  | none => s
  | some id =>
      if truthy (some id) && s.sendTimestamps.has id then
        match s.sendTimestamps.get id with
        | none => s
        | some sendTime =>
            let remaining := s.sendTimestamps.delete id
            { s with
              processingTime := now - sendTime
              sendTimestamps :=
                if remaining.size > 100 then remaining.cleanOld else remaining }
      else s

/-- The handler `wsRef.current.onmessage`. `event = none` is a payload on
which `JSON.parse` throws (or that parses to `null`): the `catch` logs it.
`env` holds the values captured by the `drawSkeleton` closure the handler
calls; `now` is the reading of `Date.now()`. Returns the new state and the
calls issued on the overlay context. -/
def onmessage (env : RenderEnv) (now : Int) (event : Option Message) (s : State) :
    State × List DrawOp :=
  match event with
  | none => (s, [])
  | some data =>
      let s1 := resolveTimestamp now data.frame_id s
      let s2 := { s1 with
                  framesReceived := s1.framesReceived + 1
                  lastJsonResponse := some data }
      if truthy data.error then ({ s2 with error := data.error }, [])
      else
        let s3 := match data.rom with
          | some rom => { s2 with romData := some rom }
          | none => s2
        if data.pose_detected then
          let s4 := { s3 with
                      poseData := some
                        { angles := data.angles
                          confidence := data.pose_confidence
                          validation := data.validation
                          guidance := data.guidance } }
          match data.keypoints with
          | none => (s4, [])
          | some kp =>
              match drawSkeleton s.overlayCanvas s.video.isSome env (some kp) data.angles with
              | Except.ok ops => (s4, ops)
              | Except.error _ => (s4, [])
        else (s3, drawNoPose s.overlayCanvas)

/-- The handler `wsRef.current.onclose`. -/
def onclose (s : State) : State :=
  { s with isConnected := false, isStreaming := false }

/-- The function `disconnectWebSocket`. -/
def disconnectWebSocket (s : State) : State :=
  let s1 := match s.wsRef with
    | some _ => { s with wsRef := none, closeCalls := s.closeCalls + 1 }
    | none => s
  { s1 with isStreaming := false, framesSent := 0, framesReceived := 0 }

end Demo

/-! ## HttpPoseAnalysis.jsx: state and request -/

namespace Http

/-- State and refs of the `HttpPoseAnalysis` component. -/
structure State where
  isAnalyzing : Bool
  currentRom : Option RomSample
  bodyPart : String
  movementType : String
  fps : Nat
  error : Option String
  poseData : Option PoseData
  isVideoReady : Bool
  video : Bool
  canvas : Option Canvas
  overlayCanvas : Option Canvas
  frameCount : Nat
  lastFpsTime : Int
deriving DecidableEq, Repr

/-- How the `fetch` of one frame ends: it rejects, or it yields a response
with a status, the body as text, and the body as parsed by `response.json()`
(an error message when that rejects). -/
inductive FetchOutcome where
  | rejected (message : String)
  | response (status : Nat) (text : String) (json : Except String Message)

/-- What one run of `analyzeSingleFrame` observes outside the component
state: whether `toBlob` produced a blob, the outcome of the request, and the
reading of `Date.now()` used for the FPS window. -/
structure RequestEnv where
  blob : Bool
  outcome : FetchOutcome
  now : Int

/-- The value the promise returned by `analyzeSingleFrame` resolves to. -/
inductive Resolution where
  | undefined
  | null
  | result (r : Message)
deriving DecidableEq

/-- The property `response.ok`: the status is in the range 200 to 299. -/
def responseOk (status : Nat) : Bool :=
  decide (200 ≤ status ∧ status ≤ 299)

/-- The `catch` block of `analyzeSingleFrame`, for an error with the given
message. -/
def analysisFailed (message : String) (s : State) : State × Resolution × List DrawOp :=
  ({ s with error := some ("Analysis failed: " ++ message) }, Resolution.null, [])

/-- The callback `analyzeSingleFrame`. `closureRom` and `closureBodyPart` are
the values captured by the `drawSkeleton` closure it calls. Returns the new
state, the value the promise resolves to, and the calls issued on the overlay
context. -/
def analyzeSingleFrame (closureRom : Option RomSample) (closureBodyPart : String)
    (env : RequestEnv) (s : State) : State × Resolution × List DrawOp :=
  if s.video = false ∨ s.canvas = none ∨ s.isVideoReady = false then
    (s, Resolution.undefined, [])
  else if env.blob = false then (s, Resolution.null, [])
  else
    match env.outcome with
    | FetchOutcome.rejected message => analysisFailed message s
    | FetchOutcome.response status text json =>
        if responseOk status = false then
          analysisFailed ("HTTP " ++ toString status ++ ": " ++ text) s
        else
          match json with
          | Except.error message => analysisFailed message s
          | Except.ok result =>
              let count := s.frameCount + 1
              let s1 :=
                if env.now - s.lastFpsTime ≥ 1000 then
                  { s with fps := count, frameCount := 0, lastFpsTime := env.now }
                else { s with frameCount := count }
              let s2 := match result.rom with
                | some rom => { s1 with currentRom := some rom }
                | none => s1
              if result.pose_detected then
                let s3 := { s2 with
                            poseData := some
                              { angles := result.angles
                                confidence := result.pose_confidence
                                validation := result.validation
                                guidance := none } }
                let ops := match result.keypoints with
                  | some kp =>
                      drawSkeleton s.overlayCanvas closureRom closureBodyPart (some kp)
                        result.angles
                  | none => []
                ({ s3 with error := none }, Resolution.result result, ops)
              else
                ({ s2 with error := none }, Resolution.result result,
                 drawNoPose s.overlayCanvas)

end Http

/-! ## Specification-side notions -/

/-- The four calls that stroke one straight segment from `s` to `e`. -/
def segmentCalls (s e : Keypoint) : List DrawOp :=
  [DrawOp.beginPath, DrawOp.moveTo s.x s.y, DrawOp.lineTo e.x e.y, DrawOp.stroke]

/-- The entries of an edge table whose two endpoint names are both keys of
the keypoint map, in table order, each with its two endpoints. -/
def presentEdges (table : List (String × String)) (keypoints : KeypointMap) :
    List ((String × String) × Keypoint × Keypoint) :=
  table.filterMap fun edge =>
    match keypoints.get edge.1, keypoints.get edge.2 with
    | some s, some e => some (edge, s, e)
    | _, _ => none

/-- Both endpoint names of an edge are keys of the keypoint map. -/
def bothPresent (keypoints : KeypointMap) (edge : String × String) : Bool :=
  (keypoints.get edge.1).isSome && (keypoints.get edge.2).isSome

/-- Keys of the timestamp map, in insertion order. -/
def TimestampMap.keys (m : TimestampMap) : List String :=
  m.map Prod.fst

namespace Demo

/-- The observations of a run of `captureAndSendFrame` in which the three
readings of `Date.now()` all give `t` and the captured canvas has content. -/
def captureAt (t : Int) : CaptureEnv :=
  { idClock := t, sendClock := t, fpsClock := t, hasContent := true, frameData := "frame" }

/-- One run of `captureAndSendFrame` per clock reading, in order; a run that
throws leaves the state as it was. -/
def registerFrames (clocks : List Int) (s : State) : State :=
  clocks.foldl
    (fun st t =>
      match captureAndSendFrame (captureAt t) st with
      | Except.ok (st', _) => st'
      | Except.error _ => st)
    s

/-- An inbound result that echoes the frame id `id`, reports no pose and
carries no other field. -/
def echo (id : String) : Message :=
  { frame_id := some id, error := none, rom := none, pose_detected := false,
    pose_confidence := none, angles := none, validation := none, guidance := none,
    keypoints := none }

/-- The component right after `onopen`, with the 640 x 480 canvases of the
markup mounted, a video that has data, and nothing sent yet; `mountClock` is
the reading of `Date.now()` stored in `lastFpsTimeRef` at mount. -/
def connected (mountClock : Int) : State :=
  { isConnected := true, isStreaming := false, bodyPart := "lower_back",
    movementType := "flexion", romData := none, poseData := none, error := none,
    fps := 0, processingTime := 0, lastJsonResponse := none, framesSent := 0,
    framesReceived := 0, video := some { enoughData := true },
    canvas := some { width := 640, height := 480 },
    overlayCanvas := some { width := 640, height := 480 },
    wsRef := some { readyState := ReadyState.isOpen }, closeCalls := 0,
    frameCount := 0, lastFpsTime := mountClock, sendTimestamps := [] }

/-- The socket is open, the video has data and the capture canvas is
mounted: the guards of `captureAndSendFrame` that depend on the state pass. -/
def canSend (s : State) : Bool :=
  match s.wsRef, s.video, s.canvas with
  | some ws, some video, some _ => decide (ws.readyState = ReadyState.isOpen) && video.enoughData
  | _, _, _ => false

/-- The clock readings `1, 2, ..., n`. -/
def clocksUpTo (n : Nat) : List Int :=
  (List.range n).map fun k => Int.ofNat (k + 1)

end Demo

namespace Http

/-- The component once the camera metadata has loaded, with 640 x 480
canvases and continuous analysis running; `mountClock` is the reading of
`Date.now()` stored in `lastFpsTimeRef` at mount. -/
def analyzing (mountClock : Int) : State :=
  { isAnalyzing := true, currentRom := none, bodyPart := "lower_back",
    movementType := "flexion", fps := 0, error := none, poseData := none,
    isVideoReady := true, video := true,
    canvas := some { width := 640, height := 480 },
    overlayCanvas := some { width := 640, height := 480 },
    frameCount := 0, lastFpsTime := mountClock }

end Http

/-! ## Schedulers -/

namespace Http

/-- The tests `analyzeSingleFrame` makes before it calls `fetch`: the refs are
set, the video is ready and `toBlob` produced a blob. -/
def startsRequest (blob : Bool) (s : State) : Bool :=
  !(decide (s.video = false ∨ s.canvas = none ∨ s.isVideoReady = false)) && blob

/-- The values a call of `analyzeSingleFrame` closes over for the
`drawSkeleton` it will call when its response arrives: `currentRom` and
`bodyPart` of the render in which the call was made. -/
structure Closure where
  currentRom : Option RomSample
  bodyPart : String
deriving DecidableEq, Repr

/-- The continuous-analysis loop of the `useEffect`: the component state and
the calls of `analyzeSingleFrame` whose `fetch` was issued and has not yet
settled, oldest first, each with its closure. -/
structure Loop where
  state : State
  pending : List Closure

/-- What can happen to the loop: the interval set by
`setInterval(analyzeLoop, 100)` fires (`blob` tells whether `toBlob` yields a
blob), or the `fetch` of the pending call at position `index` settles. -/
inductive LoopEvent where
  | tick (blob : Bool)
  | settle (index : Nat) (outcome : FetchOutcome) (now : Int)

/-- One step of the loop. A tick runs `analyzeLoop`, which calls
`analyzeSingleFrame` without awaiting it: the interval exists only while
`isAnalyzing` is set, and the call issues its `fetch` when its tests pass. A
settle runs the rest of the pending call on the current state. -/
def loopStep (l : Loop) : LoopEvent → Loop
  | LoopEvent.tick blob =>
      if l.state.isAnalyzing && startsRequest blob l.state then
        { l with pending := l.pending ++ [{ currentRom := l.state.currentRom,
                                            bodyPart := l.state.bodyPart }] }
      else l
  | LoopEvent.settle index outcome now =>
      match l.pending.get? index with
      | none => l
      | some closure =>
          { state := (analyzeSingleFrame closure.currentRom closure.bodyPart
                        { blob := true, outcome := outcome, now := now } l.state).1
            pending := l.pending.eraseIdx index }

/-- The loop after a list of events, in order. -/
def runLoop (l : Loop) (events : List LoopEvent) : Loop :=
  events.foldl loopStep l

/-- A call of `analyzeSingleFrame` made in the render that shows state `s`:
its `drawSkeleton` closes over the `currentRom` and `bodyPart` of `s`. -/
def analyzeInRender (env : RequestEnv) (s : State) : State × Resolution × List DrawOp :=
  analyzeSingleFrame s.currentRom s.bodyPart env s

end Http

namespace Demo

/-- The values of `isStreaming` and `isConnected` the interval callback of
`startStreaming` closes over: those of the render in which `startStreaming`
was called. -/
structure StreamClosure where
  isStreaming : Bool
  isConnected : Bool
deriving DecidableEq, Repr

/-- The function `startStreaming`: the state updates it requests, and the
closure of the interval callback it schedules. -/
def startStreaming (s : State) : State × StreamClosure :=
  ({ s with isStreaming := true, framesSent := 0, framesReceived := 0 },
   { isStreaming := s.isStreaming, isConnected := s.isConnected })

/-- One run of the callback passed to `setInterval` in `startStreaming`, on
the current state `s`. Returns the new state, the messages transmitted, and
whether the callback called `clearInterval`. -/
def intervalTick (closure : StreamClosure) (env : CaptureEnv) (s : State) :
    Except String (State × List OutMessage × Bool) :=
  if !closure.isStreaming || !closure.isConnected then Except.ok (s, [], true)
  else
    match captureAndSendFrame env s with
    | Except.error e => Except.error e
    | Except.ok (s', wire) => Except.ok (s', wire, false)

/-- The `onmessage` handler applied to a list of parsed messages, in order,
each with the clock reading at which it is handled. -/
def handleAll (env : RenderEnv) (events : List (Int × Message)) (s : State) : State :=
  events.foldl (fun st event => (onmessage env event.1 (some event.2) st).1) s

end Demo

namespace Demo

/-- The timestamp map holding the ids "1" to "n", each sent at the clock
reading it renders. -/
def stamps (n : Nat) : TimestampMap :=
  (clocksUpTo n).map fun t => (toString t, t)

end Demo

namespace Http

/-- A result with a detected pose, the two keypoints `Neck` and `Hip`, and
the given ROM sample. -/
def poseResult (rom : RomSample) : Message :=
  { frame_id := none, error := none, rom := some rom, pose_detected := true,
    pose_confidence := none, angles := none, validation := none, guidance := none,
    keypoints := some [("Neck", { x := 100, y := 50 }), ("Hip", { x := 100, y := 200 })] }

/-- The observations of a run of `analyzeSingleFrame` whose request is
answered with status 200 and a body that parses to `result`. -/
def answered (result : Message) (now : Int) : RequestEnv :=
  { blob := true, outcome := FetchOutcome.response 200 "" (Except.ok result), now := now }

end Http

namespace Demo

/-- One run of `captureAndSendFrame`: the new state and the messages
transmitted; a run that throws leaves the state as it was and transmits
nothing. -/
def sendFrame (env : CaptureEnv) (s : State) : State × List OutMessage :=
  match captureAndSendFrame env s with
  | Except.ok result => result
  | Except.error _ => (s, [])

end Demo

/-! ## The FPS counter -/

/-- The FPS state of either screen: `frameCountRef.current`,
`lastFpsTimeRef.current` and the displayed `fps`. -/
structure FpsState where
  count : Nat
  windowStart : Int
  fps : Nat
deriving DecidableEq, Repr

/-- The step of the FPS state for one counted frame, as the specification
words it: a frame observed at `now` closes the window when a second has
passed since `windowStart` (the displayed rate becomes the count including
this frame, the counter restarts at 0, the window restarts at `now`), and is
only counted otherwise. -/
def fpsStep (st : FpsState) (now : Int) : FpsState :=
  if now - st.windowStart ≥ 1000 then
    { count := 0, windowStart := now, fps := st.count + 1 }
  else { count := st.count + 1, windowStart := st.windowStart, fps := st.fps }

/-- The FPS state held by `ROMAnalysisDemo`. -/
def Demo.fpsState (s : Demo.State) : FpsState :=
  { count := s.frameCount, windowStart := s.lastFpsTime, fps := s.fps }

/-- The FPS state held by `HttpPoseAnalysis`. -/
def Http.fpsState (s : Http.State) : FpsState :=
  { count := s.frameCount, windowStart := s.lastFpsTime, fps := s.fps }

/-- The call writes an angle value, the template `${angle.toFixed(1)}°`. -/
def DrawOp.isAngleLabel : DrawOp → Bool
  | DrawOp.fillText (Label.angle _) _ _ => true
  | _ => false

/-! ## Lemmas on the skeleton loop -/

theorem presentEdges_map_fst (table : List (String × String)) (keypoints : KeypointMap) :
    (presentEdges table keypoints).map Prod.fst = table.filter (bothPresent keypoints) := by
  induction table with
  | nil => rfl
  | cons edge rest ih =>
      unfold presentEdges at ih ⊢
      rw [List.filterMap_cons, List.filter_cons]
      cases h1 : keypoints.get edge.1 <;> cases h2 : keypoints.get edge.2 <;>
        simp [bothPresent, h1, h2, ih]

theorem presentEdges_sound (table : List (String × String)) (keypoints : KeypointMap)
    (row : (String × String) × Keypoint × Keypoint) (h : row ∈ presentEdges table keypoints) :
    row.1 ∈ table ∧ keypoints.get row.1.1 = some row.2.1 ∧
      keypoints.get row.1.2 = some row.2.2 := by
  unfold presentEdges at h
  rw [List.mem_filterMap] at h
  obtain ⟨edge, hmem, hrow⟩ := h
  cases h1 : keypoints.get edge.1 <;> cases h2 : keypoints.get edge.2 <;>
    simp [h1, h2] at hrow
  subst hrow
  exact ⟨hmem, h1, h2⟩

theorem drawConnections_eq (table : List (String × String)) (keypoints : KeypointMap) :
    drawConnections table keypoints =
      (presentEdges table keypoints).flatMap fun row => segmentCalls row.2.1 row.2.2 := by
  induction table with
  | nil => rfl
  | cons edge rest ih =>
      unfold drawConnections presentEdges at ih ⊢
      rw [List.flatMap_cons, List.filterMap_cons, ih]
      cases h1 : keypoints.get edge.1 <;> cases h2 : keypoints.get edge.2 <;>
        simp [drawConnection, segmentCalls, h1, h2]

theorem drawHighlight_ok (bodyPart : String) (keypoints : KeypointMap) :
    ∃ ops, Demo.drawHighlight bodyPart (Demo.movementColors bodyPart) keypoints
      = Except.ok ops := by
  unfold Demo.drawHighlight
  by_cases hb : bodyPart = "lower_back"
  · subst hb
    cases h1 : keypoints.get "Neck" <;> cases h2 : keypoints.get "Hip" <;>
      simp [Demo.movementColors, List.lookup]
  · simp [hb]

theorem drawAngleVisualization_ok (bodyPart : String) (keypoints : KeypointMap)
    (angles : AngleSet) :
    ∃ ops, Demo.drawAngleVisualization bodyPart (Demo.movementColors bodyPart) keypoints angles
      = Except.ok ops := by
  unfold Demo.drawAngleVisualization Demo.drawTrunkArc Demo.drawElbowAngle
  by_cases hb : bodyPart = "lower_back"
  · subst hb
    cases h0 : angles.trunk <;> cases h1 : keypoints.get "Neck" <;>
      cases h2 : keypoints.get "Hip" <;> simp [Demo.movementColors, List.lookup]
  · by_cases he : bodyPart = "elbow"
    · subst he
      cases h0 : angles.elbow <;> cases h1 : keypoints.get "RShoulder" <;>
        cases h2 : keypoints.get "RElbow" <;> cases h3 : keypoints.get "RWrist" <;>
        simp [Demo.movementColors, List.lookup]
    · simp [hb, he]

theorem drawAngles_ok (bodyPart : String) (keypoints : KeypointMap)
    (angles : Option AngleSet) :
    ∃ ops, Demo.drawAngles bodyPart (Demo.movementColors bodyPart) keypoints angles
      = Except.ok ops := by
  cases angles with
  | none => exact ⟨[], rfl⟩
  | some a => exact drawAngleVisualization_ok bodyPart keypoints a

theorem lookup_some_mem {α : Type} (k : String) (v : α) (l : List (String × α))
    (h : List.lookup k l = some v) : (k, v) ∈ l := by
  induction l with
  | nil => simp [List.lookup] at h
  | cons kv rest ih =>
      obtain ⟨k', v'⟩ := kv
      by_cases hk : k = k'
      · subst hk
        simp [List.lookup] at h
        simp [h]
      · have hbeq : (k == k') = false := by simpa using hk
        rw [List.lookup, hbeq] at h
        exact List.mem_cons_of_mem _ (ih h)

/-! ## C1: skeleton edges -/

/-- C1: for a non-empty keypoint map and a mounted overlay, the calls that
`drawSkeleton` issues between setting the skeleton stroke style and the
keypoint markers are, in both screens, one four-call segment (`beginPath`,
`moveTo` start, `lineTo` end, `stroke`) per entry of `skeletonConnections`
whose two endpoint names are both keys of the map, in table order, drawn from
the start keypoint to the end keypoint; an entry with a missing endpoint
contributes no call. What follows the loop is the output of the later blocks
of `drawSkeleton` (in `ROMAnalysisDemo`, the body-part highlight and the angle
visualisation, neither of which throws). -/
theorem drawSkeleton_edges (keypoints : KeypointMap) (hne : keypoints ≠ [])
    (c : Canvas) (rom : Option RomSample) (bodyPart : String) (angles : Option AngleSet)
    (env : Demo.RenderEnv) :
    ((presentEdges Http.skeletonConnections keypoints).map Prod.fst
        = Http.skeletonConnections.filter (bothPresent keypoints)) ∧
    ((presentEdges Demo.skeletonConnections keypoints).map Prod.fst
        = Demo.skeletonConnections.filter (bothPresent keypoints)) ∧
    (∀ table row, row ∈ presentEdges table keypoints →
        keypoints.get row.1.1 = some row.2.1 ∧ keypoints.get row.1.2 = some row.2.2) ∧
    (∀ edge, bothPresent keypoints edge = false → drawConnection keypoints edge = []) ∧
    Http.drawSkeleton (some c) rom bodyPart (some keypoints) angles
      = [DrawOp.clearRect 0 0 c.width c.height, DrawOp.strokeStyle "#00ff00",
          DrawOp.lineWidth 3]
        ++ ((presentEdges Http.skeletonConnections keypoints).flatMap
              fun row => segmentCalls row.2.1 row.2.2)
        ++ [DrawOp.fillStyle "#ff0000"]
        ++ drawKeypoints 5 keypoints
        ++ Http.drawRomInfo rom
        ++ Http.drawTrunkAngle bodyPart keypoints angles ∧
    ∃ highlight angleOps,
      Demo.drawHighlight env.bodyPart (Demo.movementColors env.bodyPart) keypoints
        = Except.ok highlight ∧
      Demo.drawAngles env.bodyPart (Demo.movementColors env.bodyPart) keypoints angles
        = Except.ok angleOps ∧
      Demo.drawSkeleton (some c) true env (some keypoints) angles
        = Except.ok
            ([DrawOp.clearRect 0 0 c.width c.height,
              DrawOp.strokeStyle "rgba(0, 255, 0, 0.6)", DrawOp.lineWidth 2]
              ++ ((presentEdges Demo.skeletonConnections keypoints).flatMap
                    fun row => segmentCalls row.2.1 row.2.2)
              ++ highlight
              ++ [DrawOp.fillStyle "#ff0000"]
              ++ drawKeypoints 4 keypoints
              ++ angleOps
              ++ Demo.drawRomOverlay env
              ++ Demo.drawPerformance c env.processingTime) := by
  have hlen : keypoints.length ≠ 0 := by
    intro h
    exact hne (List.length_eq_zero.mp h)
  refine ⟨presentEdges_map_fst _ _, presentEdges_map_fst _ _, ?_, ?_, ?_, ?_⟩
  · intro table row hrow
    exact (presentEdges_sound table keypoints row hrow).2
  · intro edge hedge
    unfold bothPresent at hedge
    unfold drawConnection
    cases h1 : keypoints.get edge.1 <;> cases h2 : keypoints.get edge.2 <;>
      simp [h1, h2] at hedge ⊢
  · simp [Http.drawSkeleton, hlen, drawConnections_eq]
  · obtain ⟨highlight, hh⟩ := drawHighlight_ok env.bodyPart keypoints
    obtain ⟨angleOps, ha⟩ := drawAngles_ok env.bodyPart keypoints angles
    refine ⟨highlight, angleOps, hh, ha, ?_⟩
    simp only [Demo.drawSkeleton, hlen, hh, ha, drawConnections_eq]
    simp

/-- Witness for C1: a map holding only `Neck` and `Hip`. -/
theorem drawSkeleton_edges_witness :
    ([("Neck", (⟨1, 2⟩ : Keypoint)), ("Hip", ⟨3, 4⟩)] : KeypointMap) ≠ [] ∧
    (presentEdges Http.skeletonConnections [("Neck", ⟨1, 2⟩), ("Hip", ⟨3, 4⟩)]).map Prod.fst
      = Http.skeletonConnections.filter
          (bothPresent [("Neck", ⟨1, 2⟩), ("Hip", ⟨3, 4⟩)]) :=
  ⟨by simp,
   (drawSkeleton_edges [("Neck", ⟨1, 2⟩), ("Hip", ⟨3, 4⟩)] (by simp) ⟨640, 480⟩ none
      "lower_back" none ⟨none, "lower_back", "flexion", 0⟩).1⟩

/-! ## C2: gauge marker -/

theorem markerX_low (lo hi c : ℚ) (h : lo < hi) (hc : c ≤ lo) : Demo.markerX lo hi c = 20 := by
  unfold Demo.markerX
  have hd : 0 < hi - lo := sub_pos.mpr h
  have hq : (c - lo) / (hi - lo) * 250 ≤ 0 := by
    have : (c - lo) / (hi - lo) ≤ 0 := div_nonpos_of_nonpos_of_nonneg (by linarith) hd.le
    linarith
  have hmin : min 250 ((c - lo) / (hi - lo) * 250) ≤ 0 := le_trans (min_le_right _ _) hq
  rw [max_eq_left hmin]
  norm_num

theorem markerX_high (lo hi c : ℚ) (h : lo < hi) (hc : hi ≤ c) : Demo.markerX lo hi c = 270 := by
  unfold Demo.markerX
  have hd : 0 < hi - lo := sub_pos.mpr h
  have hq : 250 ≤ (c - lo) / (hi - lo) * 250 := by
    have : 1 ≤ (c - lo) / (hi - lo) := by
      rw [le_div_iff₀ hd]
      linarith
    linarith
  rw [min_eq_left hq, max_eq_right (by norm_num)]
  norm_num

theorem markerX_mid (lo hi c : ℚ) (h : lo < hi) (h1 : lo < c) (h2 : c < hi) :
    Demo.markerX lo hi c = 20 + 250 * (c - lo) / (hi - lo) := by
  unfold Demo.markerX
  have hd : 0 < hi - lo := sub_pos.mpr h
  have hpos : 0 ≤ (c - lo) / (hi - lo) := div_nonneg (by linarith) hd.le
  have hle : (c - lo) / (hi - lo) ≤ 1 := by
    rw [div_le_iff₀ hd]
    linarith
  rw [min_eq_right (by linarith), max_eq_right (by linarith)]
  ring

/-- C2: for a normal range `[lo, hi]` with `lo < hi` and any current angle `c`
(numbers idealised as rationals), the marker x-position of the ROM overlay is
`20` when `c ≤ lo`, `270` when `c ≥ hi`, and `20 + 250 * (c - lo) / (hi - lo)`
in between; it always lies in `[20, 270]`; with range `[0, 60]`, `c = 75`
gives `270` and `c = -10` gives `20`; and this is the x-coordinate at which
the overlay starts the marker triangle. -/
theorem markerX_clamped (lo hi c : ℚ) (h : lo < hi) :
    (c ≤ lo → Demo.markerX lo hi c = 20) ∧
    (hi ≤ c → Demo.markerX lo hi c = 270) ∧
    (lo < c → c < hi → Demo.markerX lo hi c = 20 + 250 * (c - lo) / (hi - lo)) ∧
    20 ≤ Demo.markerX lo hi c ∧ Demo.markerX lo hi c ≤ 270 ∧
    Demo.markerX 0 60 75 = 270 ∧ Demo.markerX 0 60 (-10) = 20 ∧
    (∀ env rom, env.romData = some rom →
      DrawOp.moveTo
          (Demo.markerX (Demo.getNormalRange env.bodyPart env.movementType).1
            (Demo.getNormalRange env.bodyPart env.movementType).2 rom.current) 105
        ∈ Demo.drawRomOverlay env) := by
  refine ⟨markerX_low lo hi c h, markerX_high lo hi c h, markerX_mid lo hi c h, ?_, ?_,
    markerX_high 0 60 75 (by norm_num) (by norm_num),
    markerX_low 0 60 (-10) (by norm_num) (by norm_num), ?_⟩
  · unfold Demo.markerX
    have : (0 : ℚ) ≤ max 0 (min 250 ((c - lo) / (hi - lo) * 250)) := le_max_left _ _
    linarith
  · unfold Demo.markerX
    have : max 0 (min 250 ((c - lo) / (hi - lo) * 250)) ≤ (250 : ℚ) :=
      max_le (by norm_num) (min_le_left _ _)
    linarith
  · intro env rom hrom
    simp [Demo.drawRomOverlay, hrom]

/-- Witness for C2: the range `[0, 60]` with current angle `75`. -/
theorem markerX_clamped_witness : (0 : ℚ) < 60 ∧ Demo.markerX 0 60 75 = 270 :=
  ⟨by norm_num, (markerX_clamped 0 60 75 (by norm_num)).2.1 (by norm_num)⟩

/-! ## C5: normal-range table -/

/-- The own-key reading `Demo.getNormalRange` yields the `[lo, hi]` entry of
the `ranges` table for every (bodyPart, movementType) pair the table
configures, and `[0, 90]` for every pair it does not configure. -/
theorem getNormalRange_own_table (bodyPart movementType : String) :
    (∀ movements r, (bodyPart, movements) ∈ Demo.ranges → (movementType, r) ∈ movements →
        Demo.getNormalRange bodyPart movementType = r) ∧
    ((¬ ∃ movements r, (bodyPart, movements) ∈ Demo.ranges ∧ (movementType, r) ∈ movements) →
        Demo.getNormalRange bodyPart movementType = (0, 90)) ∧
    ((∀ movements, (bodyPart, movements) ∉ Demo.ranges) →
        Demo.getNormalRange bodyPart movementType = (0, 90)) ∧
    Demo.getNormalRange "ankle" "flexion" = (0, 90) ∧
    Demo.getNormalRange "ankle" "extension" = (0, 90) ∧
    Demo.getNormalRange "ankle" "lateral_flexion" = (0, 90) ∧
    Demo.getNormalRange "ankle" "rotation" = (0, 90) ∧
    Demo.getNormalRange "lower_back" "flexion" = (0, 60) ∧
    Demo.getNormalRange "ankle" "dorsiflexion" = (0, 20) := by
  have hdefault : (¬ ∃ movements r,
      (bodyPart, movements) ∈ Demo.ranges ∧ (movementType, r) ∈ movements) →
      Demo.getNormalRange bodyPart movementType = (0, 90) := by
    intro hno
    unfold Demo.getNormalRange
    cases h1 : List.lookup bodyPart Demo.ranges with
    | none => rfl
    | some movements =>
        cases h2 : List.lookup movementType movements with
        | none => simp [h2]
        | some r =>
            exact absurd ⟨movements, r, lookup_some_mem _ _ _ h1, lookup_some_mem _ _ _ h2⟩ hno
  refine ⟨?_, hdefault, ?_, ?_, ?_, ?_, ?_, ?_, ?_⟩
  · intro movements r hb hm
    simp only [Demo.ranges, List.mem_cons, Prod.mk.injEq, List.mem_singleton,
      List.not_mem_nil, or_false] at hb
    rcases hb with ⟨rfl, rfl⟩ | ⟨rfl, rfl⟩ | ⟨rfl, rfl⟩ | ⟨rfl, rfl⟩ | ⟨rfl, rfl⟩ | ⟨rfl, rfl⟩ <;>
      simp only [List.mem_cons, Prod.mk.injEq, List.mem_singleton, List.not_mem_nil,
        or_false] at hm
    · rcases hm with ⟨rfl, rfl⟩ | ⟨rfl, rfl⟩ | ⟨rfl, rfl⟩ | ⟨rfl, rfl⟩ <;> decide
    · rcases hm with ⟨rfl, rfl⟩ | ⟨rfl, rfl⟩ | ⟨rfl, rfl⟩ | ⟨rfl, rfl⟩ <;> decide
    · rcases hm with ⟨rfl, rfl⟩ | ⟨rfl, rfl⟩ <;> decide
    · rcases hm with ⟨rfl, rfl⟩ | ⟨rfl, rfl⟩ | ⟨rfl, rfl⟩ <;> decide
    · rcases hm with ⟨rfl, rfl⟩ | ⟨rfl, rfl⟩ <;> decide
    · rcases hm with ⟨rfl, rfl⟩ | ⟨rfl, rfl⟩ <;> decide
  · intro hno
    exact hdefault fun ⟨movements, _, hb, _⟩ => hno movements hb
  all_goals decide

/-- On names that are not inherited ones, the value of `getNormalRange` is the
array of the own-key reading. -/
theorem getNormalRangeValue_own (builtinTruthy : String → String → Bool)
    (bodyPart movementType : String)
    (hb : bodyPart ∉ Demo.objectPrototypeKeys) (hm : movementType ∉ Demo.objectPrototypeKeys) :
    Demo.getNormalRangeValue builtinTruthy bodyPart movementType
      = Demo.RangeValue.range (Demo.getNormalRange bodyPart movementType) := by
  unfold Demo.getNormalRangeValue Demo.getNormalRange
  cases h1 : List.lookup bodyPart Demo.ranges with
  | none => simp [hb]
  | some movements =>
      cases h2 : List.lookup movementType movements with
      | none => simp [h2, hm]
      | some r => simp [h2]

/-- No key of `ranges` and no key of one of its rows is an inherited name. -/
theorem ranges_keys_own (bodyPart movementType : String)
    (movements : List (String × (ℚ × ℚ))) (r : ℚ × ℚ)
    (hb : (bodyPart, movements) ∈ Demo.ranges) (hm : (movementType, r) ∈ movements) :
    bodyPart ∉ Demo.objectPrototypeKeys ∧ movementType ∉ Demo.objectPrototypeKeys := by
  simp only [Demo.ranges, List.mem_cons, Prod.mk.injEq, List.mem_singleton,
    List.not_mem_nil, or_false] at hb
  rcases hb with ⟨rfl, rfl⟩ | ⟨rfl, rfl⟩ | ⟨rfl, rfl⟩ | ⟨rfl, rfl⟩ | ⟨rfl, rfl⟩ | ⟨rfl, rfl⟩ <;>
    simp only [List.mem_cons, Prod.mk.injEq, List.mem_singleton, List.not_mem_nil,
      or_false] at hm
  · rcases hm with ⟨rfl, rfl⟩ | ⟨rfl, rfl⟩ | ⟨rfl, rfl⟩ | ⟨rfl, rfl⟩ <;> decide
  · rcases hm with ⟨rfl, rfl⟩ | ⟨rfl, rfl⟩ | ⟨rfl, rfl⟩ | ⟨rfl, rfl⟩ <;> decide
  · rcases hm with ⟨rfl, rfl⟩ | ⟨rfl, rfl⟩ <;> decide
  · rcases hm with ⟨rfl, rfl⟩ | ⟨rfl, rfl⟩ | ⟨rfl, rfl⟩ <;> decide
  · rcases hm with ⟨rfl, rfl⟩ | ⟨rfl, rfl⟩ <;> decide
  · rcases hm with ⟨rfl, rfl⟩ | ⟨rfl, rfl⟩ <;> decide

/-- C5, as stated, fails: `lower_back` is a known body part whose row does not
configure `constructor`, yet `getNormalRange` does not return `[0, 90]` for
that pair: the read finds the inherited property `constructor`, a built-in
function, which is truthy. -/
theorem getNormalRangeValue_inherited_not_default :
    (¬ ∃ movements r, (("lower_back" : String), movements) ∈ Demo.ranges ∧
        (("constructor" : String), r) ∈ movements) ∧
    Demo.getNormalRangeValue (fun _ _ => false) "lower_back" "constructor"
      = Demo.RangeValue.builtin ∧
    Demo.getNormalRangeValue (fun _ _ => false) "lower_back" "constructor"
      ≠ Demo.RangeValue.range (0, 90) := by
  refine ⟨?_, by decide, by decide⟩
  rintro ⟨movements, r, hb, hm⟩
  exact (ranges_keys_own _ _ movements r hb hm).2 (by decide)

/-- C5, amended: `getNormalRange` returns the `[lo, hi]` entry of the `ranges`
table for every (bodyPart, movementType) pair the table configures, and
`[0, 90]` for every other pair of names that are not names of properties
inherited from `Object.prototype`: an unknown body part (whatever the
movement type), or a known body part with a movement type it does not
configure, such as `ankle` with each of the four selectable movement types.
On such names the value is the array of the own-key reading
`Demo.getNormalRange`. -/
theorem getNormalRangeValue_table (builtinTruthy : String → String → Bool)
    (bodyPart movementType : String) :
    (∀ movements r, (bodyPart, movements) ∈ Demo.ranges → (movementType, r) ∈ movements →
        Demo.getNormalRangeValue builtinTruthy bodyPart movementType
          = Demo.RangeValue.range r) ∧
    ((¬ ∃ movements r, (bodyPart, movements) ∈ Demo.ranges ∧ (movementType, r) ∈ movements) →
        bodyPart ∉ Demo.objectPrototypeKeys → movementType ∉ Demo.objectPrototypeKeys →
        Demo.getNormalRangeValue builtinTruthy bodyPart movementType
          = Demo.RangeValue.range (0, 90)) ∧
    ((∀ movements, (bodyPart, movements) ∉ Demo.ranges) →
        bodyPart ∉ Demo.objectPrototypeKeys →
        Demo.getNormalRangeValue builtinTruthy bodyPart movementType
          = Demo.RangeValue.range (0, 90)) ∧
    (bodyPart ∉ Demo.objectPrototypeKeys → movementType ∉ Demo.objectPrototypeKeys →
        Demo.getNormalRangeValue builtinTruthy bodyPart movementType
          = Demo.RangeValue.range (Demo.getNormalRange bodyPart movementType)) ∧
    Demo.getNormalRangeValue builtinTruthy "ankle" "flexion" = Demo.RangeValue.range (0, 90) ∧
    Demo.getNormalRangeValue builtinTruthy "ankle" "extension"
      = Demo.RangeValue.range (0, 90) ∧
    Demo.getNormalRangeValue builtinTruthy "ankle" "lateral_flexion"
      = Demo.RangeValue.range (0, 90) ∧
    Demo.getNormalRangeValue builtinTruthy "ankle" "rotation" = Demo.RangeValue.range (0, 90) ∧
    Demo.getNormalRangeValue builtinTruthy "lower_back" "flexion"
      = Demo.RangeValue.range (0, 60) ∧
    Demo.getNormalRangeValue builtinTruthy "ankle" "dorsiflexion"
      = Demo.RangeValue.range (0, 20) := by
  refine ⟨?_, ?_, ?_, getNormalRangeValue_own builtinTruthy bodyPart movementType,
    ?_, ?_, ?_, ?_, ?_, ?_⟩
  · intro movements r hb hm
    have hown := ranges_keys_own bodyPart movementType movements r hb hm
    rw [getNormalRangeValue_own builtinTruthy bodyPart movementType hown.1 hown.2,
      (getNormalRange_own_table bodyPart movementType).1 movements r hb hm]
  · intro hno hb hm
    rw [getNormalRangeValue_own builtinTruthy bodyPart movementType hb hm,
      (getNormalRange_own_table bodyPart movementType).2.1 hno]
  · intro hno hb
    unfold Demo.getNormalRangeValue
    cases h1 : List.lookup bodyPart Demo.ranges with
    | none => simp [hb]
    | some movements => exact absurd (lookup_some_mem _ _ _ h1) (hno movements)
  · rw [getNormalRangeValue_own builtinTruthy "ankle" "flexion" (by decide) (by decide)]
    exact congrArg _ (by decide)
  · rw [getNormalRangeValue_own builtinTruthy "ankle" "extension" (by decide) (by decide)]
    exact congrArg _ (by decide)
  · rw [getNormalRangeValue_own builtinTruthy "ankle" "lateral_flexion" (by decide)
      (by decide)]
    exact congrArg _ (by decide)
  · rw [getNormalRangeValue_own builtinTruthy "ankle" "rotation" (by decide) (by decide)]
    exact congrArg _ (by decide)
  · rw [getNormalRangeValue_own builtinTruthy "lower_back" "flexion" (by decide) (by decide)]
    exact congrArg _ (by decide)
  · rw [getNormalRangeValue_own builtinTruthy "ankle" "dorsiflexion" (by decide) (by decide)]
    exact congrArg _ (by decide)

/-- Witness for C5: `ankle` with `flexion` is not configured and neither name
is inherited; the runtime parameter is the one that makes every property of a
built-in value truthy. -/
theorem getNormalRangeValue_table_witness :
    (¬ ∃ movements r, (("ankle" : String), movements) ∈ Demo.ranges ∧
        (("flexion" : String), r) ∈ movements) ∧
    ("ankle" : String) ∉ Demo.objectPrototypeKeys ∧
    ("flexion" : String) ∉ Demo.objectPrototypeKeys ∧
    Demo.getNormalRangeValue (fun _ _ => true) "ankle" "flexion"
      = Demo.RangeValue.range (0, 90) := by
  have hno : ¬ ∃ movements r, (("ankle" : String), movements) ∈ Demo.ranges ∧
      (("flexion" : String), r) ∈ movements := by
    rintro ⟨movements, r, hb, hm⟩
    simp [Demo.ranges] at hb
    subst hb
    simp at hm
  exact ⟨hno, by decide, by decide,
    (getNormalRangeValue_table (fun _ _ => true) "ankle" "flexion").2.1 hno
      (by decide) (by decide)⟩

/-! ## C6: empty keypoint map -/

/-- C6, as stated, fails: called with an empty keypoint map on a mounted
640 x 480 overlay, `drawSkeleton` issues the full clear and nothing else in
both screens; the result differs from the clear-plus-placeholder sequence,
which only the handlers' `pose_detected` false branch issues. -/
theorem drawSkeleton_empty_no_placeholder :
    Http.drawSkeleton (some ⟨640, 480⟩) none "lower_back" (some []) none
      = [DrawOp.clearRect 0 0 640 480] ∧
    Http.drawSkeleton (some ⟨640, 480⟩) none "lower_back" (some []) none
      ≠ drawNoPose (some ⟨640, 480⟩) ∧
    Demo.drawSkeleton (some ⟨640, 480⟩) true ⟨none, "lower_back", "flexion", 0⟩ (some []) none
      = Except.ok [DrawOp.clearRect 0 0 640 480] ∧
    Demo.drawSkeleton (some ⟨640, 480⟩) true ⟨none, "lower_back", "flexion", 0⟩ (some []) none
      ≠ Except.ok (drawNoPose (some ⟨640, 480⟩)) := by
  refine ⟨rfl, ?_, rfl, ?_⟩
  · simp [Http.drawSkeleton, drawNoPose]
  · simp [Demo.drawSkeleton, drawNoPose]

/-- C6, amended: for every call of `drawSkeleton` with an empty keypoint map
on a mounted overlay (and, in `ROMAnalysisDemo`, a mounted video), the calls
issued are exactly one full clear of the overlay: no placeholder text, no
edge, keypoint marker, angle annotation or ROM panel. -/
theorem drawSkeleton_empty_clears (c : Canvas) (rom : Option RomSample) (bodyPart : String)
    (angles : Option AngleSet) (env : Demo.RenderEnv) :
    Http.drawSkeleton (some c) rom bodyPart (some []) angles
      = [DrawOp.clearRect 0 0 c.width c.height] ∧
    Demo.drawSkeleton (some c) true env (some []) angles
      = Except.ok [DrawOp.clearRect 0 0 c.width c.height] :=
  ⟨rfl, rfl⟩

/-! ## Lemmas on the handlers -/

theorem resolveTimestamp_frame (now : Int) (frame_id : Option String) (s : Demo.State) :
    (Demo.resolveTimestamp now frame_id s).romData = s.romData ∧
    (Demo.resolveTimestamp now frame_id s).poseData = s.poseData ∧
    (Demo.resolveTimestamp now frame_id s).error = s.error ∧
    (Demo.resolveTimestamp now frame_id s).overlayCanvas = s.overlayCanvas := by
  unfold Demo.resolveTimestamp
  cases frame_id with
  | none => exact ⟨rfl, rfl, rfl, rfl⟩
  | some id =>
      by_cases hg : (truthy (some id) && s.sendTimestamps.has id) = true
      · simp only [hg, if_true]
        cases s.sendTimestamps.get id <;> exact ⟨rfl, rfl, rfl, rfl⟩
      · simp only [hg]
        exact ⟨rfl, rfl, rfl, rfl⟩

/-! ## C7: inbound message with an error field -/

/-- C7: for every state and every inbound message that parses and carries a
truthy `error` field, the `onmessage` handler sets the displayed error to
that field's value, leaves `romData` and `poseData` as they were and issues
no call on the overlay, whatever `rom`, `pose_detected` or `keypoints` the
message also carries. -/
theorem onmessage_error (env : Demo.RenderEnv) (now : Int) (data : Message) (s : Demo.State)
    (herr : truthy data.error = true) :
    (Demo.onmessage env now (some data) s).1.error = data.error ∧
    (Demo.onmessage env now (some data) s).1.romData = s.romData ∧
    (Demo.onmessage env now (some data) s).1.poseData = s.poseData ∧
    (Demo.onmessage env now (some data) s).2 = [] := by
  obtain ⟨hrom, hpose, _, _⟩ := resolveTimestamp_frame now data.frame_id s
  have hrun : Demo.onmessage env now (some data) s
      = ({ Demo.resolveTimestamp now data.frame_id s with
            framesReceived := (Demo.resolveTimestamp now data.frame_id s).framesReceived + 1
            lastJsonResponse := some data
            error := data.error }, []) := by
    simp only [Demo.onmessage, herr, if_true]
  rw [hrun]
  exact ⟨rfl, hrom, hpose, rfl⟩

/-! ## Lemmas on the timestamp map -/

theorem toDigitsCore_ne_nil (b : Nat) : ∀ (fuel n : Nat) (ds : List Char), ds ≠ [] →
    Nat.toDigitsCore b fuel n ds ≠ []
  | 0, _, ds, h => by simpa [Nat.toDigitsCore] using h
  | fuel + 1, n, ds, _ => by
      simp only [Nat.toDigitsCore]
      split
      · simp
      · exact toDigitsCore_ne_nil b fuel _ _ (by simp)

theorem nat_repr_ne_empty (n : Nat) : Nat.repr n ≠ "" := by
  unfold Nat.repr Nat.toDigits
  have h : Nat.toDigitsCore 10 (n + 1) n [] ≠ [] := by
    simp only [Nat.toDigitsCore]
    split
    · simp
    · exact toDigitsCore_ne_nil 10 n _ _ (by simp)
  intro hs
  apply h
  have := congrArg String.data hs
  simpa [List.asString] using this

/-- The frame id `Date.now().toString()` is never the empty string, so it is
truthy. -/
theorem frameId_truthy (t : Int) : truthy (some (toString t)) = true := by
  have hne : toString t ≠ "" := by
    cases t with
    | ofNat n => exact nat_repr_ne_empty n
    | negSucc n =>
        intro hs
        have := congrArg String.length hs
        simp [toString, instToStringInt] at this
        exact absurd this.1 (by decide)
  simp [truthy, hne]

theorem lookup_isSome_iff_mem_keys (m : TimestampMap) (id : String) :
    m.has id = true ↔ id ∈ m.keys := by
  induction m with
  | nil => simp [TimestampMap.has, TimestampMap.keys, List.lookup]
  | cons kv rest ih =>
      obtain ⟨k, v⟩ := kv
      by_cases hk : id = k
      · subst hk
        simp [TimestampMap.has, TimestampMap.keys, List.lookup]
      · have hbeq : (id == k) = false := by simpa using hk
        simp only [TimestampMap.has, TimestampMap.keys, List.lookup, hbeq, List.map_cons,
          List.mem_cons, hk, false_or] at ih ⊢
        exact ih

theorem keys_set_new (m : TimestampMap) (id : String) (t : Int) (hnew : id ∉ m.keys) :
    (m.set id t).keys = m.keys ++ [id] := by
  induction m with
  | nil => rfl
  | cons kv rest ih =>
      obtain ⟨k, v⟩ := kv
      simp only [TimestampMap.keys, List.map_cons, List.mem_cons, not_or] at hnew
      have hk : ¬ k = id := fun h => hnew.1 h.symm
      simp only [TimestampMap.set, hk, if_false, TimestampMap.keys, List.map_cons,
        List.cons_append, List.cons.injEq, true_and]
      exact ih hnew.2

theorem keys_set_old (m : TimestampMap) (id : String) (t : Int) (hold : id ∈ m.keys) :
    (m.set id t).keys = m.keys := by
  induction m with
  | nil => simp [TimestampMap.keys] at hold
  | cons kv rest ih =>
      obtain ⟨k, v⟩ := kv
      by_cases hk : k = id
      · simp [TimestampMap.set, hk, TimestampMap.keys]
      · simp only [TimestampMap.keys, List.map_cons, List.mem_cons] at hold
        have hrest : id ∈ TimestampMap.keys rest := by
          rcases hold with h | h
          · exact absurd h.symm hk
          · exact h
        simp only [TimestampMap.set, hk, if_false, TimestampMap.keys, List.map_cons,
          List.cons.injEq, true_and]
        exact ih hrest

theorem delete_eq_self (m : TimestampMap) (id : String) (h : id ∉ m.keys) :
    m.delete id = m := by
  unfold TimestampMap.delete
  rw [List.filter_eq_self]
  intro entry hentry
  have hne : entry.1 ≠ id := by
    intro heq
    apply h
    rw [← heq]
    exact List.mem_map_of_mem Prod.fst hentry
  simpa using hne

theorem keys_delete (m : TimestampMap) (id : String) :
    (m.delete id).keys = m.keys.filter fun k => !(k == id) := by
  unfold TimestampMap.delete TimestampMap.keys
  induction m with
  | nil => rfl
  | cons kv rest ih =>
      simp only [List.filter_cons, List.map_cons]
      by_cases hk : (kv.1 == id) = true
      · simp [hk, ih]
      · simp [hk, ih]

theorem has_delete_self (m : TimestampMap) (id : String) : (m.delete id).has id = false := by
  have hnot : ¬ (m.delete id).has id = true := by
    rw [lookup_isSome_iff_mem_keys, keys_delete]
    simp
  simpa using hnot

/-- With distinct keys, the cleanup loop of `onmessage` drops the first `n`
entries of the map it starts from. -/
theorem foldl_delete_take (m : TimestampMap) (hnodup : m.keys.Nodup) (n : Nat) :
    (m.take n).foldl (fun acc entry => TimestampMap.delete acc entry.1) m = m.drop n := by
  induction m generalizing n with
  | nil => simp
  | cons kv rest ih =>
      cases n with
      | zero => simp
      | succ n =>
          simp only [TimestampMap.keys, List.map_cons, List.nodup_cons] at hnodup
          have hfirst : TimestampMap.delete (kv :: rest) kv.1 = rest := by
            have hrest : TimestampMap.delete rest kv.1 = rest :=
              delete_eq_self rest kv.1 hnodup.1
            unfold TimestampMap.delete at hrest ⊢
            simp [List.filter_cons, hrest]
          simp only [List.take_succ_cons, List.foldl_cons, List.drop_succ_cons, hfirst]
          exact ih hnodup.2 n

theorem cleanOld_eq_drop (m : TimestampMap) (hnodup : m.keys.Nodup) :
    m.cleanOld = m.drop 50 :=
  foldl_delete_take m hnodup 50

theorem mem_keys_foldl_delete (ids : List (String × Int)) (m : TimestampMap) (id : String)
    (h : id ∈ (ids.foldl (fun acc entry => TimestampMap.delete acc entry.1) m).keys) :
    id ∈ m.keys := by
  induction ids generalizing m with
  | nil => exact h
  | cons entry rest ih =>
      have hstep := ih (TimestampMap.delete m entry.1) h
      rw [keys_delete] at hstep
      exact (List.mem_filter.mp hstep).1

theorem has_cleanOld (m : TimestampMap) (id : String) (h : m.has id = false) :
    m.cleanOld.has id = false := by
  have hnot : ¬ m.cleanOld.has id = true := by
    intro hhas
    rw [lookup_isSome_iff_mem_keys] at hhas
    have hmem := mem_keys_foldl_delete (m.take 50) m id hhas
    rw [← lookup_isSome_iff_mem_keys, h] at hmem
    exact absurd hmem (by decide)
  simpa using hnot

/-! ## Lemmas on `captureAndSendFrame` and `onmessage` -/

theorem captureAndSendFrame_open (env : Demo.CaptureEnv) (s : Demo.State)
    (hsend : Demo.canSend s = true) (hcontent : env.hasContent = true) :
    ∃ s' wire, Demo.captureAndSendFrame env s = Except.ok (s', wire) ∧
      s'.sendTimestamps = s.sendTimestamps.set (toString env.idClock) env.sendClock ∧
      Demo.canSend s' = true := by
  unfold Demo.canSend at hsend
  cases hws : s.wsRef with
  | none => simp [hws] at hsend
  | some ws =>
      cases hv : s.video with
      | none => simp [hws, hv] at hsend
      | some video =>
          cases hc : s.canvas with
          | none => simp [hws, hv, hc] at hsend
          | some c =>
              simp only [hws, hv, hc, Bool.and_eq_true, decide_eq_true_eq] at hsend
              obtain ⟨hopen, hdata⟩ := hsend
              by_cases hfps : env.fpsClock - s.lastFpsTime ≥ 1000
              · refine ⟨{ s with
                          sendTimestamps :=
                            s.sendTimestamps.set (toString env.idClock) env.sendClock
                          framesSent := s.framesSent + 1
                          fps := s.frameCount + 1
                          frameCount := 0
                          lastFpsTime := env.fpsClock },
                        [{ frame_base64 := env.frameData, body_part := s.bodyPart,
                           movement_type := s.movementType, include_keypoints := true,
                           frame_id := toString env.idClock }], ?_, rfl, ?_⟩
                · simp only [Demo.captureAndSendFrame, hws, hv, hc, hopen, hdata, hcontent,
                    Demo.Socket.send]
                  simp [hfps]
                · simp [Demo.canSend, hws, hv, hc, hopen, hdata]
              · refine ⟨{ s with
                          sendTimestamps :=
                            s.sendTimestamps.set (toString env.idClock) env.sendClock
                          framesSent := s.framesSent + 1
                          frameCount := s.frameCount + 1 },
                        [{ frame_base64 := env.frameData, body_part := s.bodyPart,
                           movement_type := s.movementType, include_keypoints := true,
                           frame_id := toString env.idClock }], ?_, rfl, ?_⟩
                · simp only [Demo.captureAndSendFrame, hws, hv, hc, hopen, hdata, hcontent,
                    Demo.Socket.send]
                  simp [hfps]
                · simp [Demo.canSend, hws, hv, hc, hopen, hdata]

theorem registerFrames_keys (clocks : List Int) (s : Demo.State)
    (hsend : Demo.canSend s = true)
    (hnodup : (s.sendTimestamps.keys ++ clocks.map toString).Nodup) :
    (Demo.registerFrames clocks s).sendTimestamps.keys
        = s.sendTimestamps.keys ++ clocks.map toString ∧
      Demo.canSend (Demo.registerFrames clocks s) = true := by
  induction clocks generalizing s with
  | nil => simpa [Demo.registerFrames] using hsend
  | cons t rest ih =>
      obtain ⟨s', wire, hrun, hmap, hsend'⟩ :=
        captureAndSendFrame_open (Demo.captureAt t) s hsend rfl
      have hnew : toString t ∉ s.sendTimestamps.keys := by
        intro hmem
        rw [List.map_cons, List.nodup_append] at hnodup
        exact hnodup.2.2 hmem (List.mem_cons_self _ _)
      have hkeys : s'.sendTimestamps.keys = s.sendTimestamps.keys ++ [toString t] := by
        rw [hmap]
        exact keys_set_new _ _ _ hnew
      have hstep : Demo.registerFrames (t :: rest) s = Demo.registerFrames rest s' := by
        simp [Demo.registerFrames, hrun]
      have hnodup' : (s'.sendTimestamps.keys ++ rest.map toString).Nodup := by
        rw [hkeys, List.append_assoc]
        simpa using hnodup
      obtain ⟨hk, hs⟩ := ih s' hsend' hnodup'
      rw [hstep, hk, hkeys, List.append_assoc]
      exact ⟨by simp, hs⟩

theorem resolveTimestamp_hit (now : Int) (id : String) (t0 : Int) (s : Demo.State)
    (hid : id ≠ "") (hget : s.sendTimestamps.get id = some t0) :
    Demo.resolveTimestamp now (some id) s
      = { s with
          processingTime := now - t0
          sendTimestamps :=
            if (s.sendTimestamps.delete id).size > 100 then (s.sendTimestamps.delete id).cleanOld
            else s.sendTimestamps.delete id } := by
  have hhas : s.sendTimestamps.has id = true := by
    unfold TimestampMap.get at hget
    simp [TimestampMap.has, hget]
  simp [Demo.resolveTimestamp, truthy, hid, hhas, hget]

theorem resolveTimestamp_miss (now : Int) (frame_id : Option String) (s : Demo.State)
    (hmiss : frame_id = none ∨ ∃ id, frame_id = some id ∧ s.sendTimestamps.has id = false) :
    Demo.resolveTimestamp now frame_id s = s := by
  rcases hmiss with rfl | ⟨id, rfl, hhas⟩
  · rfl
  · simp [Demo.resolveTimestamp, hhas]

theorem onmessage_transport (env : Demo.RenderEnv) (now : Int) (data : Message) (s : Demo.State) :
    (Demo.onmessage env now (some data) s).1.sendTimestamps
        = (Demo.resolveTimestamp now data.frame_id s).sendTimestamps ∧
      (Demo.onmessage env now (some data) s).1.processingTime
        = (Demo.resolveTimestamp now data.frame_id s).processingTime := by
  unfold Demo.onmessage
  by_cases herr : truthy data.error = true
  · simp [herr]
  · cases hrom : data.rom <;> cases hpose : data.pose_detected <;>
      cases hkp : data.keypoints <;> simp [herr, hrom, hpose, hkp] <;>
      split <;> exact ⟨rfl, rfl⟩

theorem keys_delete_eq_erase (m : TimestampMap) (id : String) (hnodup : m.keys.Nodup) :
    (m.delete id).keys = m.keys.erase id := by
  rw [keys_delete, List.Nodup.erase_eq_filter hnodup]
  rfl

/-- With distinct keys, resolving a registered, non-empty frame id leaves the
other keys, minus the 50 oldest of them when more than 100 are left. -/
theorem resolveTimestamp_keys (now : Int) (id : String) (s : Demo.State) (hid : id ≠ "")
    (hnodup : s.sendTimestamps.keys.Nodup) (hmem : id ∈ s.sendTimestamps.keys) :
    (Demo.resolveTimestamp now (some id) s).sendTimestamps.keys
      = if 100 < (s.sendTimestamps.keys.erase id).length
        then (s.sendTimestamps.keys.erase id).drop 50
        else s.sendTimestamps.keys.erase id := by
  have hhas : s.sendTimestamps.has id = true := (lookup_isSome_iff_mem_keys _ _).mpr hmem
  obtain ⟨t0, hget⟩ : ∃ t0, s.sendTimestamps.get id = some t0 := by
    unfold TimestampMap.has at hhas
    exact Option.isSome_iff_exists.mp hhas
  rw [resolveTimestamp_hit now id t0 s hid hget]
  have hkeys := keys_delete_eq_erase s.sendTimestamps id hnodup
  have hnodup' : (s.sendTimestamps.delete id).keys.Nodup := by
    rw [hkeys]
    exact hnodup.erase id
  have hsize : (s.sendTimestamps.delete id).size = (s.sendTimestamps.keys.erase id).length := by
    rw [← hkeys]
    simp [TimestampMap.size, TimestampMap.keys]
  simp only [hsize, gt_iff_lt]
  split
  · rw [cleanOld_eq_drop _ hnodup']
    simp only [TimestampMap.keys, List.map_drop]
    exact congrArg (List.drop 50) hkeys
  · exact hkeys

/-! ## C3: registration and eviction -/

set_option maxRecDepth 100000 in
/-- C3, as stated, fails: starting from an empty timestamp map, after
`captureAndSendFrame` has registered the 101 distinct ids "1" to "101" and no
message was handled, the map still holds all 101 ids in registration order;
the oldest id "1" is still present. -/
theorem register_101_evicts_nothing :
    (Demo.registerFrames (Demo.clocksUpTo 101) (Demo.connected 0)).sendTimestamps.keys
        = (Demo.clocksUpTo 101).map toString ∧
    (Demo.registerFrames (Demo.clocksUpTo 101) (Demo.connected 0)).sendTimestamps.size = 101 ∧
    (Demo.registerFrames (Demo.clocksUpTo 101) (Demo.connected 0)).sendTimestamps.has "1"
        = true := by
  have hnodup : ((Demo.connected 0).sendTimestamps.keys
      ++ (Demo.clocksUpTo 101).map toString).Nodup := by
    show ((Demo.clocksUpTo 101).map toString).Nodup
    decide
  have hkeys := (registerFrames_keys (Demo.clocksUpTo 101) (Demo.connected 0) rfl hnodup).1
  have hkeys' : (Demo.registerFrames (Demo.clocksUpTo 101) (Demo.connected 0)).sendTimestamps.keys
      = (Demo.clocksUpTo 101).map toString := hkeys
  refine ⟨hkeys', ?_, ?_⟩
  · have hlen := congrArg List.length hkeys'
    simpa [TimestampMap.size, TimestampMap.keys, Demo.clocksUpTo] using hlen
  · rw [lookup_isSome_iff_mem_keys, hkeys']
    exact List.mem_map.mpr ⟨1, by decide, rfl⟩

/-- C3, amended: starting from an empty timestamp map in a state that can
send, after registering frames at clock readings whose ids are distinct, no
id has been removed: the map holds exactly the registered ids, in order, each
still present (so 101 registrations leave 101 entries). The 50 oldest go only
when an inbound message echoing a registered id is handled while more than
100 other entries remain: the map then holds the other ids minus their 50
oldest (with 102 registrations, the 51 newest of the other 101). -/
theorem register_then_resolve (clocks : List Int) (s : Demo.State)
    (hsend : Demo.canSend s = true) (hempty : s.sendTimestamps = [])
    (hdistinct : (clocks.map toString).Nodup) :
    (Demo.registerFrames clocks s).sendTimestamps.keys = clocks.map toString ∧
    (Demo.registerFrames clocks s).sendTimestamps.size = clocks.length ∧
    (∀ t ∈ clocks, (Demo.registerFrames clocks s).sendTimestamps.has (toString t) = true) ∧
    (∀ (env : Demo.RenderEnv) (now : Int) (data : Message) (t : Int), t ∈ clocks →
        data.frame_id = some (toString t) → 100 < clocks.length - 1 →
        (Demo.onmessage env now (some data) (Demo.registerFrames clocks s)).1.sendTimestamps.keys
          = ((clocks.map toString).erase (toString t)).drop 50) := by
  have hnodup : (s.sendTimestamps.keys ++ clocks.map toString).Nodup := by
    rw [hempty]
    exact hdistinct
  have hkeys : (Demo.registerFrames clocks s).sendTimestamps.keys = clocks.map toString := by
    have h := (registerFrames_keys clocks s hsend hnodup).1
    rw [hempty] at h
    exact h
  refine ⟨hkeys, ?_, ?_, ?_⟩
  · have hlen := congrArg List.length hkeys
    simpa [TimestampMap.size, TimestampMap.keys] using hlen
  · intro t ht
    rw [lookup_isSome_iff_mem_keys, hkeys]
    exact List.mem_map_of_mem _ ht
  · intro env now data t ht hid hmany
    have hid' : toString t ≠ "" := by
      have h := frameId_truthy t
      intro hnil
      rw [hnil] at h
      exact absurd h (by decide)
    have hmem : toString t ∈ (Demo.registerFrames clocks s).sendTimestamps.keys := by
      rw [hkeys]
      exact List.mem_map_of_mem _ ht
    have hres := resolveTimestamp_keys now (toString t) (Demo.registerFrames clocks s) hid'
      (by rw [hkeys]; exact hdistinct) hmem
    rw [(onmessage_transport env now data (Demo.registerFrames clocks s)).1, hid, hres, hkeys]
    have hlen : ((clocks.map toString).erase (toString t)).length = clocks.length - 1 := by
      rw [List.length_erase_of_mem (by rw [← hkeys]; exact hmem)]
      simp
    rw [hlen, if_pos hmany]

set_option maxRecDepth 100000 in
/-- Witness for C3: 102 registrations at clock readings 1 to 102, then the
echo of the last id. -/
theorem register_then_resolve_witness :
    Demo.canSend (Demo.connected 0) = true ∧
    ((Demo.clocksUpTo 102).map toString).Nodup ∧
    (Demo.onmessage ⟨none, "lower_back", "flexion", 0⟩ 200 (some (Demo.echo "102"))
        (Demo.registerFrames (Demo.clocksUpTo 102) (Demo.connected 0))).1.sendTimestamps.keys
      = (((Demo.clocksUpTo 102).map toString).erase (toString (102 : Int))).drop 50 :=
  ⟨rfl, by decide,
   (register_then_resolve (Demo.clocksUpTo 102) (Demo.connected 0) rfl rfl (by decide)).2.2.2
     ⟨none, "lower_back", "flexion", 0⟩ 200 (Demo.echo "102") 102 (by decide) rfl
     (by decide)⟩

/-- Witness for C7: an error message that also carries a pose flag. -/
theorem onmessage_error_witness :
    truthy ({ Demo.echo "1" with error := some "boom", pose_detected := true } : Message).error
        = true ∧
    (Demo.onmessage ⟨none, "lower_back", "flexion", 0⟩ 5
        (some { Demo.echo "1" with error := some "boom", pose_detected := true })
        (Demo.connected 0)).2 = [] :=
  ⟨by decide,
   (onmessage_error ⟨none, "lower_back", "flexion", 0⟩ 5
      { Demo.echo "1" with error := some "boom", pose_detected := true }
      (Demo.connected 0) (by decide)).2.2.2⟩

/-! ## C4: round-trip latency -/

/-- C4: when an inbound message carries a frame id that is a key of the
timestamp map with value `t0` (a non-empty string, as every id produced by
`Date.now().toString()` is) and is handled at clock value `now ≥ t0`, the
handler sets `processingTime` to `now - t0`, which is non-negative, and the
key is no longer in the map; when the message has no frame id, or its frame
id is not a key of the map, `processingTime` and the map are unchanged. -/
theorem onmessage_latency (env : Demo.RenderEnv) (now : Int) (data : Message) (s : Demo.State) :
    (∀ id t0, data.frame_id = some id → id ≠ "" → s.sendTimestamps.get id = some t0 →
        t0 ≤ now →
        (Demo.onmessage env now (some data) s).1.processingTime = now - t0 ∧
        0 ≤ (Demo.onmessage env now (some data) s).1.processingTime ∧
        (Demo.onmessage env now (some data) s).1.sendTimestamps.has id = false) ∧
    ((data.frame_id = none ∨
        ∃ id, data.frame_id = some id ∧ s.sendTimestamps.has id = false) →
        (Demo.onmessage env now (some data) s).1.processingTime = s.processingTime ∧
        (Demo.onmessage env now (some data) s).1.sendTimestamps = s.sendTimestamps) := by
  obtain ⟨hmap, htime⟩ := onmessage_transport env now data s
  constructor
  · intro id t0 hid hne hget hnow
    rw [hmap, htime, hid, resolveTimestamp_hit now id t0 s hne hget]
    refine ⟨rfl, ?_, ?_⟩
    · show 0 ≤ now - t0
      omega
    · show (if (s.sendTimestamps.delete id).size > 100
          then (s.sendTimestamps.delete id).cleanOld
          else s.sendTimestamps.delete id).has id = false
      split
      · exact has_cleanOld _ _ (has_delete_self _ _)
      · exact has_delete_self _ _
  · intro hmiss
    rw [hmap, htime, resolveTimestamp_miss now data.frame_id s hmiss]
    exact ⟨rfl, rfl⟩

/-- Witness for C4: the id "7", sent at 100, is echoed at 130. -/
theorem onmessage_latency_witness :
    (Demo.onmessage ⟨none, "lower_back", "flexion", 0⟩ 130 (some (Demo.echo "7"))
        { Demo.connected 0 with sendTimestamps := [("7", 100)] }).1.processingTime
      = 130 - 100 :=
  ((onmessage_latency ⟨none, "lower_back", "flexion", 0⟩ 130 (Demo.echo "7")
      { Demo.connected 0 with sendTimestamps := [("7", 100)] }).1
    "7" 100 rfl (by decide) rfl (by decide)).1

/-! ## C8: sending while not connected -/

/-- C8: when the socket reference is null or the socket's `readyState` is not
OPEN, `captureAndSendFrame` throws nothing, transmits no message and returns
the state it was given: the timestamp map, `framesSent`, the FPS counter and
its window are unchanged and nothing is queued. -/
theorem captureAndSendFrame_dropped (env : Demo.CaptureEnv) (s : Demo.State)
    (hclosed : s.wsRef = none ∨
      ∃ ws, s.wsRef = some ws ∧ ws.readyState ≠ Demo.ReadyState.isOpen) :
    Demo.captureAndSendFrame env s = Except.ok (s, []) := by
  rcases hclosed with hnone | ⟨ws, hws, hstate⟩
  · simp [Demo.captureAndSendFrame, hnone]
  · simp [Demo.captureAndSendFrame, hws, hstate]

/-- Witness for C8: a socket that is still connecting. -/
theorem captureAndSendFrame_dropped_witness :
    Demo.captureAndSendFrame (Demo.captureAt 5)
        { Demo.connected 0 with wsRef := some { readyState := Demo.ReadyState.connecting } }
      = Except.ok
          ({ Demo.connected 0 with wsRef := some { readyState := Demo.ReadyState.connecting } },
           []) :=
  captureAndSendFrame_dropped (Demo.captureAt 5)
    { Demo.connected 0 with wsRef := some { readyState := Demo.ReadyState.connecting } }
    (Or.inr ⟨{ readyState := Demo.ReadyState.connecting }, rfl, by decide⟩)

/-! ## C10: disconnecting twice -/

/-- C10: `disconnectWebSocket` is idempotent. For every state, the second of
two calls changes nothing; after one call the socket reference is null; the
first call makes one `close()` call when a socket was held (whatever its
`readyState`) and none otherwise, and the second call makes none. The
function has no throwing step. -/
theorem disconnectWebSocket_idempotent (s : Demo.State) :
    Demo.disconnectWebSocket (Demo.disconnectWebSocket s) = Demo.disconnectWebSocket s ∧
    (Demo.disconnectWebSocket s).wsRef = none ∧
    (Demo.disconnectWebSocket s).closeCalls
      = s.closeCalls + (if s.wsRef.isSome then 1 else 0) ∧
    (Demo.disconnectWebSocket (Demo.disconnectWebSocket s)).closeCalls
      = (Demo.disconnectWebSocket s).closeCalls := by
  cases hws : s.wsRef <;> simp [Demo.disconnectWebSocket, hws]

/-! ## C9: non-success response of the polling transport -/

/-- C9: when the request of `analyzeSingleFrame` yields a response with a
non-success status `status` and body text `text`, the promise resolves to
`null`, the displayed error becomes "Analysis failed: HTTP status: text"
(which contains `text`), nothing is drawn, and `currentRom`, `poseData`, the
FPS counter and window and the `isAnalyzing` flag are unchanged, so the
interval of the continuous loop keeps running. -/
theorem analyzeSingleFrame_http_error (closureRom : Option RomSample) (closureBodyPart : String)
    (env : Http.RequestEnv) (s : Http.State) (status : Nat) (text : String)
    (json : Except String Message)
    (hready : s.video = true ∧ s.canvas ≠ none ∧ s.isVideoReady = true)
    (hblob : env.blob = true)
    (hresponse : env.outcome = Http.FetchOutcome.response status text json)
    (hstatus : Http.responseOk status = false) :
    (Http.analyzeSingleFrame closureRom closureBodyPart env s).2.1 = Http.Resolution.null ∧
    (Http.analyzeSingleFrame closureRom closureBodyPart env s).1.error
      = some ("Analysis failed: HTTP " ++ toString status ++ ": " ++ text) ∧
    (∃ before after,
      (Http.analyzeSingleFrame closureRom closureBodyPart env s).1.error
        = some (before ++ text ++ after)) ∧
    (Http.analyzeSingleFrame closureRom closureBodyPart env s).2.2 = [] ∧
    (Http.analyzeSingleFrame closureRom closureBodyPart env s).1.currentRom = s.currentRom ∧
    (Http.analyzeSingleFrame closureRom closureBodyPart env s).1.poseData = s.poseData ∧
    (Http.analyzeSingleFrame closureRom closureBodyPart env s).1.fps = s.fps ∧
    (Http.analyzeSingleFrame closureRom closureBodyPart env s).1.frameCount = s.frameCount ∧
    (Http.analyzeSingleFrame closureRom closureBodyPart env s).1.lastFpsTime = s.lastFpsTime ∧
    (Http.analyzeSingleFrame closureRom closureBodyPart env s).1.isAnalyzing = s.isAnalyzing := by
  obtain ⟨hvideo, hcanvas, hvready⟩ := hready
  have hguard : ¬ (s.video = false ∨ s.canvas = none ∨ s.isVideoReady = false) := by
    simp [hvideo, hcanvas, hvready]
  have hrun : Http.analyzeSingleFrame closureRom closureBodyPart env s
      = Http.analysisFailed ("HTTP " ++ toString status ++ ": " ++ text) s := by
    unfold Http.analyzeSingleFrame
    rw [if_neg hguard, if_neg (by simp [hblob])]
    simp only [hresponse, hstatus, if_true]
  have hmessage : "Analysis failed: " ++ ("HTTP " ++ toString status ++ ": " ++ text)
      = "Analysis failed: HTTP " ++ toString status ++ ": " ++ text := by
    have hliteral : "Analysis failed: " ++ "HTTP " = "Analysis failed: HTTP " := by decide
    simp only [String.append_assoc]
    rw [← String.append_assoc "Analysis failed: " "HTTP ", hliteral]
  rw [hrun]
  refine ⟨rfl, ?_, ?_, rfl, rfl, rfl, rfl, rfl, rfl, rfl⟩
  · show some ("Analysis failed: " ++ ("HTTP " ++ toString status ++ ": " ++ text)) = _
    rw [hmessage]
  · refine ⟨"Analysis failed: HTTP " ++ toString status ++ ": ", "", ?_⟩
    show some ("Analysis failed: " ++ ("HTTP " ++ toString status ++ ": " ++ text)) = _
    rw [hmessage, String.append_empty]

/-- Witness for C9: a response with status 500 and body "boom". -/
theorem analyzeSingleFrame_http_error_witness :
    Http.responseOk 500 = false ∧
    (Http.analyzeSingleFrame none "lower_back"
        { blob := true
          outcome := Http.FetchOutcome.response 500 "boom" (Except.error "bad json")
          now := 10 }
        (Http.analyzing 0)).1.error
      = some ("Analysis failed: HTTP " ++ toString 500 ++ ": " ++ "boom") :=
  ⟨by decide,
   (analyzeSingleFrame_http_error none "lower_back"
      { blob := true
        outcome := Http.FetchOutcome.response 500 "boom" (Except.error "bad json")
        now := 10 }
      (Http.analyzing 0) 500 "boom" (Except.error "bad json")
      ⟨rfl, by simp [Http.analyzing], rfl⟩ rfl rfl (by decide)).2.1⟩

/-! ## C11: in-flight requests of the polling loop -/

theorem tick_starts_request (l : Http.Loop) (hrun : l.state.isAnalyzing = true)
    (hready : Http.startsRequest true l.state = true) :
    Http.loopStep l (Http.LoopEvent.tick true)
      = { l with pending := l.pending ++ [{ currentRom := l.state.currentRom,
                                            bodyPart := l.state.bodyPart }] } := by
  simp [Http.loopStep, hrun, hready]

/-- C11, as stated, fails: in continuous mode with the video ready, two
interval ticks with no response in between leave two requests in flight. -/
theorem two_ticks_two_requests :
    (Http.runLoop { state := Http.analyzing 0, pending := [] }
        [Http.LoopEvent.tick true, Http.LoopEvent.tick true]).pending.length = 2 ∧
    ¬ (Http.runLoop { state := Http.analyzing 0, pending := [] }
        [Http.LoopEvent.tick true, Http.LoopEvent.tick true]).pending.length ≤ 1 := by
  have hrun : (Http.runLoop { state := Http.analyzing 0, pending := [] }
      [Http.LoopEvent.tick true, Http.LoopEvent.tick true]).pending.length = 2 := by
    simp [Http.runLoop, Http.loopStep, Http.startsRequest, Http.analyzing]
  exact ⟨hrun, by omega⟩

/-- C11, amended: in the polling transport's continuous mode, with the video
ready and a blob produced, every interval tick starts a new request whether
or not earlier requests are still outstanding: each tick adds one request in
flight, so `n` ticks with no response in between add `n`; a response to an
outstanding request removes one. -/
theorem tick_always_starts (l : Http.Loop) (hrun : l.state.isAnalyzing = true)
    (hready : Http.startsRequest true l.state = true) (n : Nat) :
    (Http.loopStep l (Http.LoopEvent.tick true)).pending.length = l.pending.length + 1 ∧
    (Http.runLoop l (List.replicate n (Http.LoopEvent.tick true))).pending.length
      = l.pending.length + n ∧
    (∀ index outcome now, index < l.pending.length →
      (Http.loopStep l (Http.LoopEvent.settle index outcome now)).pending.length
        = l.pending.length - 1) := by
  refine ⟨?_, ?_, ?_⟩
  · rw [tick_starts_request l hrun hready]
    simp
  · induction n generalizing l with
    | zero => rfl
    | succ k ih =>
        have hstep := tick_starts_request l hrun hready
        have hnext := ih (Http.loopStep l (Http.LoopEvent.tick true))
          (by rw [hstep]; exact hrun) (by rw [hstep]; exact hready)
        rw [List.replicate_succ]
        show (Http.runLoop (Http.loopStep l (Http.LoopEvent.tick true))
          (List.replicate k (Http.LoopEvent.tick true))).pending.length = _
        rw [hnext, hstep]
        simp
        omega
  · intro index outcome now hindex
    obtain ⟨closure, hget⟩ : ∃ closure, l.pending.get? index = some closure := by
      cases h : l.pending.get? index with
      | none => exact absurd (List.get?_eq_none.mp h) (by omega)
      | some closure => exact ⟨closure, rfl⟩
    simp only [Http.loopStep, hget]
    exact List.length_eraseIdx_of_lt hindex

/-- Witness for C11: three ticks from the analysing state at mount. -/
theorem tick_always_starts_witness :
    (Http.analyzing 0).isAnalyzing = true ∧
    Http.startsRequest true (Http.analyzing 0) = true ∧
    (Http.runLoop { state := Http.analyzing 0, pending := [] }
        (List.replicate 3 (Http.LoopEvent.tick true))).pending.length = 0 + 3 :=
  ⟨rfl, by simp [Http.startsRequest, Http.analyzing],
   (tick_always_starts { state := Http.analyzing 0, pending := [] } rfl
      (by simp [Http.startsRequest, Http.analyzing]) 3).2.1⟩

/-! ## C12: displayed error -/

theorem onmessage_keeps_error (env : Demo.RenderEnv) (now : Int) (data : Message)
    (s : Demo.State) (hclean : truthy data.error = false) :
    (Demo.onmessage env now (some data) s).1.error = s.error := by
  have herr := (resolveTimestamp_frame now data.frame_id s).2.2.1
  unfold Demo.onmessage
  cases hrom : data.rom <;> cases hpose : data.pose_detected <;>
    cases hkp : data.keypoints <;> simp [hclean, hrom, hpose, hkp, herr] <;>
    split <;> rfl

theorem onmessage_sets_error (env : Demo.RenderEnv) (now : Int) (data : Message)
    (s : Demo.State) (herr : truthy data.error = true) :
    (Demo.onmessage env now (some data) s).1.error = data.error := by
  simp [Demo.onmessage, herr]

/-- C12 on the code: in the streaming transport, an error message followed by
a result without an error leaves the first message's error displayed (the
handler never clears it), while the polling transport clears a displayed
error on the next successful result. -/
theorem streaming_error_survives_success :
    (Demo.handleAll ⟨none, "lower_back", "flexion", 0⟩
        [(5, { Demo.echo "1" with error := some "boom" }), (6, Demo.echo "2")]
        (Demo.connected 0)).error = some "boom" ∧
    (Http.analyzeInRender
        { blob := true
          outcome := Http.FetchOutcome.response 200 "" (Except.ok (Demo.echo "2"))
          now := 6 }
        { Http.analyzing 0 with error := some "boom" }).1.error = none := by
  constructor
  · show (Demo.onmessage _ 6 (some (Demo.echo "2"))
      (Demo.onmessage _ 5 (some { Demo.echo "1" with error := some "boom" })
        (Demo.connected 0)).1).1.error = some "boom"
    rw [onmessage_keeps_error _ _ _ _ (by decide)]
    exact onmessage_sets_error _ 5 { Demo.echo "1" with error := some "boom" }
      (Demo.connected 0) (by decide)
  · simp [Http.analyzeInRender, Http.analyzeSingleFrame, Http.analyzing, Http.responseOk,
      Demo.echo]

/-! ## C13: the overlay is cleared first -/

theorem demo_drawSkeleton_head (c : Canvas) (env : Demo.RenderEnv) (keypoints : KeypointMap)
    (angles : Option AngleSet) :
    ∃ rest, Demo.drawSkeleton (some c) true env (some keypoints) angles
      = Except.ok (DrawOp.clearRect 0 0 c.width c.height :: rest) := by
  by_cases hlen : keypoints.length = 0
  · exact ⟨[], by simp [Demo.drawSkeleton, hlen]⟩
  · obtain ⟨highlight, hh⟩ := drawHighlight_ok env.bodyPart keypoints
    obtain ⟨angleOps, ha⟩ := drawAngles_ok env.bodyPart keypoints angles
    refine ⟨[DrawOp.strokeStyle "rgba(0, 255, 0, 0.6)", DrawOp.lineWidth 2]
        ++ drawConnections Demo.skeletonConnections keypoints
        ++ highlight
        ++ [DrawOp.fillStyle "#ff0000"]
        ++ drawKeypoints 4 keypoints
        ++ angleOps
        ++ Demo.drawRomOverlay env
        ++ Demo.drawPerformance c env.processingTime, ?_⟩
    simp only [Demo.drawSkeleton, hlen, hh, ha]
    simp

theorem http_drawSkeleton_head (c : Canvas) (rom : Option RomSample) (bodyPart : String)
    (keypoints : Option KeypointMap) (angles : Option AngleSet) :
    ∃ rest, Http.drawSkeleton (some c) rom bodyPart keypoints angles
      = DrawOp.clearRect 0 0 c.width c.height :: rest :=
  ⟨_, rfl⟩

/-- The calls `onmessage` issues for a parsed message without an error. -/
theorem onmessage_draws (env : Demo.RenderEnv) (now : Int) (data : Message) (s : Demo.State)
    (hclean : truthy data.error = false) :
    (Demo.onmessage env now (some data) s).2
      = if data.pose_detected then
          match data.keypoints with
          | none => []
          | some kp =>
              match Demo.drawSkeleton s.overlayCanvas s.video.isSome env (some kp) data.angles with
              | Except.ok ops => ops
              | Except.error _ => []
        else drawNoPose s.overlayCanvas := by
  unfold Demo.onmessage
  cases hrom : data.rom <;> cases hpose : data.pose_detected <;>
    cases hkp : data.keypoints <;> simp [hclean, hrom, hpose, hkp] <;>
    split <;> simp_all

/-- The calls `analyzeSingleFrame` issues for a success response whose body
parses to `result`. -/
theorem analyzeSingleFrame_draws (closureRom : Option RomSample) (closureBodyPart : String)
    (env : Http.RequestEnv) (s : Http.State) (status : Nat) (text : String) (result : Message)
    (hready : Http.startsRequest env.blob s = true)
    (hresponse : env.outcome = Http.FetchOutcome.response status text (Except.ok result))
    (hstatus : Http.responseOk status = true) :
    (Http.analyzeSingleFrame closureRom closureBodyPart env s).2.2
        = (if result.pose_detected then
            match result.keypoints with
            | some kp =>
                Http.drawSkeleton s.overlayCanvas closureRom closureBodyPart (some kp)
                  result.angles
            | none => []
          else drawNoPose s.overlayCanvas) ∧
      (Http.analyzeSingleFrame closureRom closureBodyPart env s).1.currentRom
        = (match result.rom with
          | some rom => some rom
          | none => s.currentRom) ∧
      (Http.analyzeSingleFrame closureRom closureBodyPart env s).1.error = none := by
  have hguard : ¬ (s.video = false ∨ s.canvas = none ∨ s.isVideoReady = false) := by
    intro h
    simp [Http.startsRequest, h] at hready
  have hblob : ¬ env.blob = false := by
    intro h
    simp [Http.startsRequest, h] at hready
  unfold Http.analyzeSingleFrame
  rw [if_neg hguard, if_neg hblob]
  simp only [hresponse, hstatus]
  cases hrom : result.rom <;> cases hpose : result.pose_detected <;>
    cases hkp : result.keypoints <;> simp <;> split <;> simp

/-- C13, as stated, fails: a parsed, non-error result with `pose_detected`
true and no `keypoints` field makes neither handler issue any call on a
mounted overlay, so the overlay is not cleared. -/
theorem pose_without_keypoints_draws_nothing :
    (Demo.onmessage ⟨none, "lower_back", "flexion", 0⟩ 5
        (some { Demo.echo "1" with pose_detected := true }) (Demo.connected 0)).2 = [] ∧
    (Http.analyzeInRender
        { blob := true
          outcome := Http.FetchOutcome.response 200 ""
            (Except.ok { Demo.echo "1" with pose_detected := true })
          now := 5 }
        (Http.analyzing 0)).2.2 = [] := by
  constructor
  · rw [onmessage_draws _ _ _ _ (by decide)]
    rfl
  · rw [Http.analyzeInRender,
      (analyzeSingleFrame_draws _ _ _ (Http.analyzing 0) 200 ""
        { Demo.echo "1" with pose_detected := true }
        (by simp [Http.startsRequest, Http.analyzing]) rfl (by decide)).1]
    rfl

/-- C13, amended: for every successfully parsed, non-error result processed
by either transport's handler with the overlay mounted (and, in the streaming
screen, the video mounted), the calls issued begin with a full clear of the
overlay when the result has `pose_detected` false or carries a `keypoints`
field; a result with `pose_detected` true and no `keypoints` field issues no
call at all. -/
theorem result_begins_with_clear (data : Message) (c : Canvas)
    (env : Demo.RenderEnv) (now : Int) (sD : Demo.State)
    (closureRom : Option RomSample) (closureBodyPart : String) (req : Http.RequestEnv)
    (sH : Http.State) (status : Nat) (text : String)
    (hclean : truthy data.error = false)
    (hoverlayD : sD.overlayCanvas = some c) (hvideo : sD.video.isSome = true)
    (hready : Http.startsRequest req.blob sH = true)
    (hresponse : req.outcome = Http.FetchOutcome.response status text (Except.ok data))
    (hstatus : Http.responseOk status = true)
    (hoverlayH : sH.overlayCanvas = some c) :
    ((data.pose_detected = false ∨ data.keypoints ≠ none) →
      (Demo.onmessage env now (some data) sD).2.head?
          = some (DrawOp.clearRect 0 0 c.width c.height) ∧
        (Http.analyzeSingleFrame closureRom closureBodyPart req sH).2.2.head?
          = some (DrawOp.clearRect 0 0 c.width c.height)) ∧
    (data.pose_detected = true → data.keypoints = none →
      (Demo.onmessage env now (some data) sD).2 = [] ∧
        (Http.analyzeSingleFrame closureRom closureBodyPart req sH).2.2 = []) := by
  have hD := onmessage_draws env now data sD hclean
  have hH := (analyzeSingleFrame_draws closureRom closureBodyPart req sH status text data
    hready hresponse hstatus).1
  rw [hD, hH, hoverlayD, hoverlayH, hvideo]
  constructor
  · intro hdraw
    cases hpose : data.pose_detected with
    | false => simp [drawNoPose]
    | true =>
        cases hkp : data.keypoints with
        | none => simp [hpose, hkp] at hdraw
        | some kp =>
            obtain ⟨restD, hrestD⟩ := demo_drawSkeleton_head c env kp data.angles
            obtain ⟨restH, hrestH⟩ :=
              http_drawSkeleton_head c closureRom closureBodyPart (some kp) data.angles
            simp [hrestD, hrestH]
  · intro hpose hkp
    simp [hpose, hkp]

/-- Witness for C13: a result without a pose, on the mounted screens. -/
theorem result_begins_with_clear_witness :
    truthy (Demo.echo "1").error = false ∧
    (Demo.onmessage ⟨none, "lower_back", "flexion", 0⟩ 5 (some (Demo.echo "1"))
        (Demo.connected 0)).2.head? = some (DrawOp.clearRect 0 0 640 480) :=
  ⟨rfl,
   ((result_begins_with_clear (Demo.echo "1") ⟨640, 480⟩ ⟨none, "lower_back", "flexion", 0⟩ 5
      (Demo.connected 0) none "lower_back"
      { blob := true
        outcome := Http.FetchOutcome.response 200 "" (Except.ok (Demo.echo "1"))
        now := 5 }
      (Http.analyzing 0) 200 "" rfl rfl rfl
      (by simp [Http.startsRequest, Http.analyzing]) rfl (by decide) rfl).1
    (Or.inl rfl)).1⟩

/-! ## C14: the ROM sample held by the client -/

theorem onmessage_rom (env : Demo.RenderEnv) (now : Int) (data : Message) (s : Demo.State)
    (hclean : truthy data.error = false) :
    (Demo.onmessage env now (some data) s).1.romData
      = match data.rom with
        | some rom => some rom
        | none => s.romData := by
  have hrom0 := (resolveTimestamp_frame now data.frame_id s).1
  unfold Demo.onmessage
  cases hrom : data.rom <;> cases hpose : data.pose_detected <;>
    cases hkp : data.keypoints <;> simp [hclean, hrom, hpose, hkp, hrom0] <;>
    split <;> rfl

/-- C14, as stated, fails: the streaming handler holds whatever sample the
last result carried. After a result with rom (current 10, min 0, max 20) and
then one with rom (current 10, min 5, max 15), the held min has risen from 0
to 5 and the held max has fallen from 20 to 15; and a result whose rom has
min 10 above current 5 above max 0 is held as it is. -/
theorem held_rom_follows_results :
    (Demo.handleAll ⟨none, "lower_back", "flexion", 0⟩
        [(5, { Demo.echo "1" with rom := some ⟨10, 0, 20, 20⟩ })]
        (Demo.connected 0)).romData = some ⟨10, 0, 20, 20⟩ ∧
    (Demo.handleAll ⟨none, "lower_back", "flexion", 0⟩
        [(5, { Demo.echo "1" with rom := some ⟨10, 0, 20, 20⟩ }),
         (6, { Demo.echo "2" with rom := some ⟨10, 5, 15, 10⟩ })]
        (Demo.connected 0)).romData = some ⟨10, 5, 15, 10⟩ ∧
    (Demo.handleAll ⟨none, "lower_back", "flexion", 0⟩
        [(5, { Demo.echo "1" with rom := some ⟨5, 10, 0, -10⟩ })]
        (Demo.connected 0)).romData = some ⟨5, 10, 0, -10⟩ := by
  refine ⟨?_, ?_, ?_⟩
  · show (Demo.onmessage _ 5 (some _) (Demo.connected 0)).1.romData = _
    rw [onmessage_rom _ _ _ _ (by decide)]
  · show (Demo.onmessage _ 6 (some _) (Demo.onmessage _ 5 (some _) (Demo.connected 0)).1).1.romData
      = _
    rw [onmessage_rom _ _ _ _ (by decide)]
  · show (Demo.onmessage _ 5 (some _) (Demo.connected 0)).1.romData = _
    rw [onmessage_rom _ _ _ _ (by decide)]

/-- C14, amended: after each successfully processed, non-error result, the
RomSample held by the client is that result's `rom`, or the sample held
before when the result carries none; the client computes no extrema. Hence
any property of samples (such as `min ≤ current ≤ max`) that holds of the
sample held before and of the sample received holds of the sample held
after. -/
theorem rom_stored_verbatim (data : Message)
    (env : Demo.RenderEnv) (now : Int) (sD : Demo.State)
    (closureRom : Option RomSample) (closureBodyPart : String) (req : Http.RequestEnv)
    (sH : Http.State) (status : Nat) (text : String)
    (hclean : truthy data.error = false)
    (hready : Http.startsRequest req.blob sH = true)
    (hresponse : req.outcome = Http.FetchOutcome.response status text (Except.ok data))
    (hstatus : Http.responseOk status = true) :
    (Demo.onmessage env now (some data) sD).1.romData
        = (match data.rom with
          | some rom => some rom
          | none => sD.romData) ∧
    (Http.analyzeSingleFrame closureRom closureBodyPart req sH).1.currentRom
        = (match data.rom with
          | some rom => some rom
          | none => sH.currentRom) ∧
    (∀ P : RomSample → Prop,
      (∀ r, sD.romData = some r → P r) → (∀ r, data.rom = some r → P r) →
        ∀ r, (Demo.onmessage env now (some data) sD).1.romData = some r → P r) ∧
    (∀ P : RomSample → Prop,
      (∀ r, sH.currentRom = some r → P r) → (∀ r, data.rom = some r → P r) →
        ∀ r, (Http.analyzeSingleFrame closureRom closureBodyPart req sH).1.currentRom = some r →
          P r) := by
  have hD := onmessage_rom env now data sD hclean
  have hH := (analyzeSingleFrame_draws closureRom closureBodyPart req sH status text data
    hready hresponse hstatus).2.1
  refine ⟨hD, hH, ?_, ?_⟩
  · intro P hold hnew r hr
    rw [hD] at hr
    cases hrom : data.rom with
    | none =>
        rw [hrom] at hr
        exact hold r hr
    | some rom =>
        rw [hrom] at hr
        exact hnew r (by rw [hrom]; exact hr)
  · intro P hold hnew r hr
    rw [hH] at hr
    cases hrom : data.rom with
    | none =>
        rw [hrom] at hr
        exact hold r hr
    | some rom =>
        rw [hrom] at hr
        exact hnew r (by rw [hrom]; exact hr)

/-- Witness for C14: a result carrying one sample, on the mounted screens. -/
theorem rom_stored_verbatim_witness :
    truthy ({ Demo.echo "1" with rom := some ⟨10, 0, 20, 20⟩ } : Message).error = false ∧
    (Demo.onmessage ⟨none, "lower_back", "flexion", 0⟩ 5
        (some { Demo.echo "1" with rom := some ⟨10, 0, 20, 20⟩ })
        (Demo.connected 0)).1.romData = some ⟨10, 0, 20, 20⟩ :=
  ⟨rfl,
   (rom_stored_verbatim { Demo.echo "1" with rom := some ⟨10, 0, 20, 20⟩ }
      ⟨none, "lower_back", "flexion", 0⟩ 5 (Demo.connected 0) none "lower_back"
      { blob := true
        outcome := Http.FetchOutcome.response 200 ""
          (Except.ok { Demo.echo "1" with rom := some ⟨10, 0, 20, 20⟩ })
        now := 5 }
      (Http.analyzing 0) 200 "" rfl
      (by simp [Http.startsRequest, Http.analyzing]) rfl (by decide)).1⟩

/-! ## C18: the channel closes -/

/-- C18: for every state, the `onclose` handler yields a state with
`isConnected` and `isStreaming` false and with `romData`, `poseData`, the
displayed error and the selected body part and movement type unchanged. -/
theorem onclose_resets_flags (s : Demo.State) :
    (Demo.onclose s).isConnected = false ∧
    (Demo.onclose s).isStreaming = false ∧
    (Demo.onclose s).romData = s.romData ∧
    (Demo.onclose s).poseData = s.poseData ∧
    (Demo.onclose s).error = s.error ∧
    (Demo.onclose s).bodyPart = s.bodyPart ∧
    (Demo.onclose s).movementType = s.movementType :=
  ⟨rfl, rfl, rfl, rfl, rfl, rfl, rfl⟩

/-! ## C17: the streaming interval -/

/-- C17 on the code: `startStreaming`, called on the connected state that is
not yet streaming, sets `isStreaming`, yet the callback of its interval closes
over the `isStreaming = false` of the render in which it was called: the
first tick, run on the state that is connected, streaming and able to send,
calls `clearInterval` and transmits nothing, and so does a tick on any
state. -/
theorem startStreaming_first_tick_cancels :
    (Demo.startStreaming (Demo.connected 0)).1.isStreaming = true ∧
    (Demo.startStreaming (Demo.connected 0)).1.isConnected = true ∧
    Demo.canSend (Demo.startStreaming (Demo.connected 0)).1 = true ∧
    Demo.intervalTick (Demo.startStreaming (Demo.connected 0)).2 (Demo.captureAt 600)
        (Demo.startStreaming (Demo.connected 0)).1
      = Except.ok ((Demo.startStreaming (Demo.connected 0)).1, [], true) ∧
    (∀ env s, Demo.intervalTick (Demo.startStreaming (Demo.connected 0)).2 env s
      = Except.ok (s, [], true)) :=
  ⟨rfl, rfl, rfl, rfl, fun _ _ => rfl⟩

/-! ## C20: the ROM panel of a result -/

/-- C20 on the code: `drawSkeleton` draws the panel from the `currentRom` its
closure holds, which is the state of the render in which the request was
made. The first result of a session, with a pose, two keypoints and the
sample (current 30, min 10, max 40, range 30), updates `currentRom` but is
drawn without the panel; the next result, with current 45, is drawn with a
panel that shows 30, the value held before it arrived. -/
theorem panel_shows_previous_rom :
    (Http.analyzeInRender (Http.answered (Http.poseResult ⟨30, 10, 40, 30⟩) 5)
        (Http.analyzing 0)).1.currentRom = some ⟨30, 10, 40, 30⟩ ∧
    DrawOp.fillRect 10 10 250 100 ∉
      (Http.analyzeInRender (Http.answered (Http.poseResult ⟨30, 10, 40, 30⟩) 5)
        (Http.analyzing 0)).2.2 ∧
    DrawOp.fillText (Label.rom 30) 20 40 ∉
      (Http.analyzeInRender (Http.answered (Http.poseResult ⟨30, 10, 40, 30⟩) 5)
        (Http.analyzing 0)).2.2 ∧
    DrawOp.fillText (Label.rom 30) 20 40 ∈
      (Http.analyzeInRender (Http.answered (Http.poseResult ⟨45, 10, 45, 35⟩) 105)
        (Http.analyzeInRender (Http.answered (Http.poseResult ⟨30, 10, 40, 30⟩) 5)
          (Http.analyzing 0)).1).2.2 ∧
    DrawOp.fillText (Label.rom 45) 20 40 ∉
      (Http.analyzeInRender (Http.answered (Http.poseResult ⟨45, 10, 45, 35⟩) 105)
        (Http.analyzeInRender (Http.answered (Http.poseResult ⟨30, 10, 40, 30⟩) 5)
          (Http.analyzing 0)).1).2.2 := by
  refine ⟨?_, ?_, ?_, ?_, ?_⟩ <;> decide

/-! ## Lemmas on the size of the timestamp map -/

theorem size_set_le (m : TimestampMap) (id : String) (t : Int) :
    (m.set id t).size ≤ m.size + 1 := by
  induction m with
  | nil => simp [TimestampMap.set, TimestampMap.size]
  | cons kv rest ih =>
      obtain ⟨k, v⟩ := kv
      by_cases hk : k = id
      · simp [TimestampMap.set, TimestampMap.size, hk]
      · simp only [TimestampMap.set, hk, if_false, TimestampMap.size, List.length_cons] at ih ⊢
        omega

theorem size_delete_le (m : TimestampMap) (id : String) : (m.delete id).size ≤ m.size :=
  List.length_filter_le _ _

theorem size_foldl_delete_le (ids : List (String × Int)) (m : TimestampMap) :
    (ids.foldl (fun acc entry => TimestampMap.delete acc entry.1) m).size ≤ m.size := by
  induction ids generalizing m with
  | nil => exact Nat.le_refl _
  | cons entry rest ih =>
      exact Nat.le_trans (ih (TimestampMap.delete m entry.1)) (size_delete_le m entry.1)

theorem size_resolveTimestamp_le (now : Int) (frame_id : Option String) (s : Demo.State) :
    (Demo.resolveTimestamp now frame_id s).sendTimestamps.size ≤ s.sendTimestamps.size := by
  unfold Demo.resolveTimestamp
  cases frame_id with
  | none => exact Nat.le_refl _
  | some id =>
      by_cases hg : (truthy (some id) && s.sendTimestamps.has id) = true
      · simp only [hg, if_true]
        cases s.sendTimestamps.get id with
        | none => exact Nat.le_refl _
        | some sendTime =>
            show (if (s.sendTimestamps.delete id).size > 100
              then (s.sendTimestamps.delete id).cleanOld
              else s.sendTimestamps.delete id).size ≤ s.sendTimestamps.size
            split
            · exact Nat.le_trans (size_foldl_delete_le _ _) (size_delete_le _ _)
            · exact size_delete_le _ _
      · simp only [hg]
        exact Nat.le_refl _

theorem captureAndSendFrame_map (env : Demo.CaptureEnv) (s s' : Demo.State)
    (wire : List Demo.OutMessage)
    (hrun : Demo.captureAndSendFrame env s = Except.ok (s', wire)) :
    s'.sendTimestamps = s.sendTimestamps ∨
      s'.sendTimestamps = s.sendTimestamps.set (toString env.idClock) env.sendClock := by
  unfold Demo.captureAndSendFrame at hrun
  split at hrun
  · simp only [Except.ok.injEq, Prod.mk.injEq] at hrun
    exact Or.inl (by rw [← hrun.1])
  · split at hrun
    · simp only [Except.ok.injEq, Prod.mk.injEq] at hrun
      exact Or.inl (by rw [← hrun.1])
    · split at hrun
      · split at hrun
        · simp only [Except.ok.injEq, Prod.mk.injEq] at hrun
          exact Or.inl (by rw [← hrun.1])
        · split at hrun
          · simp only [Except.ok.injEq, Prod.mk.injEq] at hrun
            exact Or.inl (by rw [← hrun.1])
          · dsimp only at hrun
            split at hrun
            · exact absurd hrun (by simp)
            · split at hrun <;>
                (simp only [Except.ok.injEq, Prod.mk.injEq] at hrun
                 exact Or.inr (by rw [← hrun.1]))
      · simp only [Except.ok.injEq, Prod.mk.injEq] at hrun
        exact Or.inl (by rw [← hrun.1])

theorem size_delete_of_mem (m : TimestampMap) (id : String) (hnodup : m.keys.Nodup)
    (hhas : m.has id = true) : (m.delete id).size = m.size - 1 := by
  have hmem : id ∈ m.keys := (lookup_isSome_iff_mem_keys m id).mp hhas
  have hkeys := congrArg List.length (keys_delete_eq_erase m id hnodup)
  rw [List.length_erase_of_mem hmem] at hkeys
  simpa [TimestampMap.size, TimestampMap.keys] using hkeys

theorem has_get (m : TimestampMap) (id : String) (hhas : m.has id = true) :
    ∃ t0, m.get id = some t0 := by
  unfold TimestampMap.has at hhas
  exact Option.isSome_iff_exists.mp hhas

theorem nodup_keys_delete (m : TimestampMap) (id : String) (hnodup : m.keys.Nodup) :
    (m.delete id).keys.Nodup := by
  rw [keys_delete_eq_erase m id hnodup]
  exact hnodup.erase id

/-- Registering an id keeps the keys of the map distinct, as `Map.set` does. -/
theorem nodup_keys_set (m : TimestampMap) (id : String) (t : Int) (hnodup : m.keys.Nodup) :
    (m.set id t).keys.Nodup := by
  by_cases hmem : id ∈ m.keys
  · rw [keys_set_old m id t hmem]
    exact hnodup
  · rw [keys_set_new m id t hmem]
    refine List.Nodup.append hnodup (List.nodup_singleton id) ?_
    intro k hk hid
    rw [List.mem_singleton] at hid
    exact hmem (hid ▸ hk)

/-! ## C19: the cleanup of a matched message -/

/-- C19: let the timestamp map have distinct keys (as a `Map` has). When a
message whose (non-empty) frame id is a key of the map is handled and `n`
entries are left once the matched entry is deleted, then for `n > 100` the
map afterwards is those entries without the first 50 in insertion order, the
other `n - 50` in place with their timestamps, and for `n ≤ 100` it is those
`n` entries; when the message has no frame id, or one that is not a key, the
map is unchanged. -/
theorem onmessage_cleanup (env : Demo.RenderEnv) (now : Int) (data : Message) (s : Demo.State)
    (hnodup : s.sendTimestamps.keys.Nodup) :
    (∀ id, data.frame_id = some id → id ≠ "" → s.sendTimestamps.has id = true →
      (s.sendTimestamps.delete id).size = s.sendTimestamps.size - 1 ∧
      (100 < (s.sendTimestamps.delete id).size →
        (Demo.onmessage env now (some data) s).1.sendTimestamps
            = (s.sendTimestamps.delete id).drop 50 ∧
          (Demo.onmessage env now (some data) s).1.sendTimestamps.size
            = (s.sendTimestamps.delete id).size - 50) ∧
      ((s.sendTimestamps.delete id).size ≤ 100 →
        (Demo.onmessage env now (some data) s).1.sendTimestamps
          = s.sendTimestamps.delete id)) ∧
    ((data.frame_id = none ∨
        ∃ id, data.frame_id = some id ∧ s.sendTimestamps.has id = false) →
      (Demo.onmessage env now (some data) s).1.sendTimestamps = s.sendTimestamps) := by
  have hmap := (onmessage_transport env now data s).1
  constructor
  · intro id hid hne hhas
    obtain ⟨t0, hget⟩ := has_get _ _ hhas
    rw [hmap, hid, resolveTimestamp_hit now id t0 s hne hget]
    refine ⟨size_delete_of_mem _ _ hnodup hhas, ?_, ?_⟩
    · intro hmany
      have hclean := cleanOld_eq_drop _ (nodup_keys_delete _ id hnodup)
      have hgt : (s.sendTimestamps.delete id).size > 100 := hmany
      rw [if_pos hgt, hclean]
      exact ⟨rfl, by simp [TimestampMap.size]⟩
    · intro hfew
      have hle : ¬ (s.sendTimestamps.delete id).size > 100 := by omega
      simp only [hle, if_false]
  · intro hmiss
    rw [hmap, resolveTimestamp_miss now data.frame_id s hmiss]

set_option maxRecDepth 100000 in
/-- Witness for C19: the ids "1" to "102" in the map, and the echo of
"102". -/
theorem onmessage_cleanup_witness :
    (Demo.stamps 102).keys.Nodup ∧
    (Demo.onmessage ⟨none, "lower_back", "flexion", 0⟩ 200 (some (Demo.echo "102"))
        { Demo.connected 0 with sendTimestamps := Demo.stamps 102 }).1.sendTimestamps
      = ((Demo.stamps 102).delete "102").drop 50 :=
  ⟨by decide,
   (((onmessage_cleanup ⟨none, "lower_back", "flexion", 0⟩ 200 (Demo.echo "102")
        { Demo.connected 0 with sendTimestamps := Demo.stamps 102 } (by decide)).1
      "102" rfl (by decide) (by decide)).2.1 (by decide)).1⟩

/-! ## C15: size of the timestamp map -/

set_option maxRecDepth 100000 in
/-- C15, as stated, fails: after 102 frames sent at distinct clock readings
with no inbound message, the timestamp map holds 102 entries, more than
101. -/
theorem register_102_exceeds_bound :
    (Demo.registerFrames (Demo.clocksUpTo 102) (Demo.connected 0)).sendTimestamps.size = 102 ∧
    ¬ (Demo.registerFrames (Demo.clocksUpTo 102) (Demo.connected 0)).sendTimestamps.size
        ≤ 101 := by
  have hnodup : ((Demo.connected 0).sendTimestamps.keys
      ++ (Demo.clocksUpTo 102).map toString).Nodup := by
    show ((Demo.clocksUpTo 102).map toString).Nodup
    decide
  have hkeys := (registerFrames_keys (Demo.clocksUpTo 102) (Demo.connected 0) rfl hnodup).1
  have hlen := congrArg List.length hkeys
  have hsize : (Demo.registerFrames (Demo.clocksUpTo 102)
      (Demo.connected 0)).sendTimestamps.size = 102 := by
    simpa [TimestampMap.size, TimestampMap.keys, Demo.clocksUpTo, Demo.connected] using hlen
  exact ⟨hsize, by omega⟩

/-- C15, amended: the number of entries in the timestamp map grows by at most
one with each frame sent and never grows when an inbound message is handled;
handling a message whose (non-empty) frame id is a key of a map of `n`
entries with distinct keys leaves `n - 1` entries when `n ≤ 101` and `n - 51`
when `n > 101`. -/
theorem timestamps_size_steps (env : Demo.CaptureEnv) (s s' : Demo.State)
    (wire : List Demo.OutMessage) (renv : Demo.RenderEnv) (now : Int) (event : Option Message)
    (hrun : Demo.captureAndSendFrame env s = Except.ok (s', wire)) :
    s'.sendTimestamps.size ≤ s.sendTimestamps.size + 1 ∧
    (Demo.onmessage renv now event s).1.sendTimestamps.size ≤ s.sendTimestamps.size ∧
    (∀ data id, event = some data → data.frame_id = some id → id ≠ "" →
      s.sendTimestamps.keys.Nodup → s.sendTimestamps.has id = true →
      (Demo.onmessage renv now event s).1.sendTimestamps.size
        = if 101 < s.sendTimestamps.size then s.sendTimestamps.size - 51
          else s.sendTimestamps.size - 1) := by
  refine ⟨?_, ?_, ?_⟩
  · rcases captureAndSendFrame_map env s s' wire hrun with h | h
    · rw [h]
      omega
    · rw [h]
      exact size_set_le _ _ _
  · cases event with
    | none => exact Nat.le_refl _
    | some data =>
        rw [(onmessage_transport renv now data s).1]
        exact size_resolveTimestamp_le now data.frame_id s
  · intro data id hevent hid hne hnodup hhas
    subst hevent
    obtain ⟨t0, hget⟩ := has_get _ _ hhas
    have hsize := size_delete_of_mem _ _ hnodup hhas
    rw [(onmessage_transport renv now data s).1, hid, resolveTimestamp_hit now id t0 s hne hget]
    show (if (s.sendTimestamps.delete id).size > 100
      then (s.sendTimestamps.delete id).cleanOld
      else s.sendTimestamps.delete id).size = _
    by_cases hmany : 101 < s.sendTimestamps.size
    · have hgt : (s.sendTimestamps.delete id).size > 100 := by omega
      rw [if_pos hgt, if_pos hmany, cleanOld_eq_drop _ (nodup_keys_delete _ id hnodup)]
      simp only [TimestampMap.size, List.length_drop] at hsize ⊢
      omega
    · have hle : ¬ (s.sendTimestamps.delete id).size > 100 := by omega
      rw [if_neg hle, if_neg hmany]
      exact hsize

/-- Witness for C15: one frame sent from the connected state at clock
reading 5. -/
theorem timestamps_size_steps_witness :
    Demo.captureAndSendFrame (Demo.captureAt 5) (Demo.connected 0)
      = Except.ok
          ({ Demo.connected 0 with
              sendTimestamps := [("5", 5)], framesSent := 1, frameCount := 1 },
           [{ frame_base64 := "frame", body_part := "lower_back", movement_type := "flexion",
              include_keypoints := true, frame_id := "5" }]) ∧
    ({ Demo.connected 0 with
        sendTimestamps := [("5", 5)], framesSent := 1, frameCount := 1 } :
      Demo.State).sendTimestamps.size ≤ (Demo.connected 0).sendTimestamps.size + 1 :=
  ⟨rfl,
   (timestamps_size_steps (Demo.captureAt 5) (Demo.connected 0)
      { Demo.connected 0 with sendTimestamps := [("5", 5)], framesSent := 1, frameCount := 1 }
      [{ frame_base64 := "frame", body_part := "lower_back", movement_type := "flexion",
         include_keypoints := true, frame_id := "5" }]
      ⟨none, "lower_back", "flexion", 0⟩ 7 none rfl).1⟩

/-! ## Lemmas on frame ids -/

theorem toDigitsCore_eq_digits (b : Nat) (hb : 2 ≤ b) : ∀ (fuel n : Nat) (ds : List Char),
    n < fuel → 0 < n →
    Nat.toDigitsCore b fuel n ds = ((Nat.digits b n).reverse.map Nat.digitChar) ++ ds
  | 0, _, _, h, _ => absurd h (Nat.not_lt_zero _)
  | fuel + 1, n, ds, hlt, hpos => by
      have hdef : Nat.digits b n = (n % b) :: Nat.digits b (n / b) :=
        Nat.digits_def' (by omega) hpos
      simp only [Nat.toDigitsCore]
      by_cases hq : n / b = 0
      · simp [hq, hdef]
      · have hqpos : 0 < n / b := Nat.pos_of_ne_zero hq
        have hqlt : n / b < fuel := by
          have : n / b < n := Nat.div_lt_self hpos (by omega)
          omega
        rw [if_neg hq, toDigitsCore_eq_digits b hb fuel (n / b) _ hqlt hqpos, hdef]
        simp

theorem toDigits_eq_digits (n : Nat) (hpos : 0 < n) :
    Nat.toDigits 10 n = (Nat.digits 10 n).reverse.map Nat.digitChar := by
  unfold Nat.toDigits
  rw [toDigitsCore_eq_digits 10 (by decide) (n + 1) n [] (by omega) hpos]
  simp

theorem digitChar_inj : ∀ a < 10, ∀ b < 10, Nat.digitChar a = Nat.digitChar b → a = b := by
  decide

theorem toDigits_zero : Nat.toDigits 10 0 = ['0'] := by decide

theorem map_digitChar_inj : ∀ (l₁ l₂ : List Nat), (∀ d ∈ l₁, d < 10) → (∀ d ∈ l₂, d < 10) →
    l₁.map Nat.digitChar = l₂.map Nat.digitChar → l₁ = l₂
  | [], [], _, _, _ => rfl
  | [], _ :: _, _, _, h => by simp at h
  | _ :: _, [], _, _, h => by simp at h
  | a :: l₁, b :: l₂, h₁, h₂, h => by
      simp only [List.map_cons, List.cons.injEq] at h
      have hab := digitChar_inj a (h₁ a (List.mem_cons_self _ _)) b
        (h₂ b (List.mem_cons_self _ _)) h.1
      have := map_digitChar_inj l₁ l₂ (fun d hd => h₁ d (List.mem_cons_of_mem _ hd))
        (fun d hd => h₂ d (List.mem_cons_of_mem _ hd)) h.2
      rw [hab, this]

theorem toDigits_pos_ne_zero (m : Nat) (hm : 0 < m) :
    Nat.toDigits 10 m ≠ Nat.toDigits 10 0 := by
  intro h
  rw [toDigits_zero, toDigits_eq_digits m hm] at h
  have hrev : (Nat.digits 10 m).reverse = [0] :=
    map_digitChar_inj _ [0]
      (fun d hd => Nat.digits_lt_base (by decide) (List.mem_reverse.mp hd))
      (by decide) h
  have hd : Nat.digits 10 m = [0] := by
    have := congrArg List.reverse hrev
    simpa using this
  have hof := Nat.ofDigits_digits 10 m
  rw [hd] at hof
  simp at hof
  omega

theorem toDigits_inj (n m : Nat) (h : Nat.toDigits 10 n = Nat.toDigits 10 m) : n = m := by
  rcases Nat.eq_zero_or_pos n with hn | hn <;> rcases Nat.eq_zero_or_pos m with hm | hm
  · rw [hn, hm]
  · rw [hn] at h
    exact absurd h.symm (toDigits_pos_ne_zero m hm)
  · rw [hm] at h
    exact absurd h (toDigits_pos_ne_zero n hn)
  · rw [toDigits_eq_digits n hn, toDigits_eq_digits m hm] at h
    have hrev := map_digitChar_inj _ _
      (fun d hd => Nat.digits_lt_base (by decide) (List.mem_reverse.mp hd))
      (fun d hd => Nat.digits_lt_base (by decide) (List.mem_reverse.mp hd)) h
    have hd : Nat.digits 10 n = Nat.digits 10 m := List.reverse_injective hrev
    exact Nat.digits_inj_iff.mp hd

theorem nat_repr_inj (n m : Nat) (h : Nat.repr n = Nat.repr m) : n = m := by
  apply toDigits_inj
  have := congrArg String.data h
  simpa [Nat.repr, List.asString] using this

theorem toDigits_head_ne_minus (n : Nat) : ∀ rest, Nat.toDigits 10 n ≠ '-' :: rest := by
  intro rest h
  rcases Nat.eq_zero_or_pos n with hn | hn
  · rw [hn, toDigits_zero] at h
    simp only [List.cons.injEq] at h
    exact absurd h.1 (by decide)
  · rw [toDigits_eq_digits n hn] at h
    have hne : (Nat.digits 10 n).reverse ≠ [] := by
      simpa using Nat.digits_ne_nil_iff_ne_zero.mpr (Nat.pos_iff_ne_zero.mp hn)
    obtain ⟨d, tl, hcons⟩ := List.exists_cons_of_ne_nil hne
    have hd : d < 10 := Nat.digits_lt_base (by decide)
      (List.mem_reverse.mp (by rw [hcons]; exact List.mem_cons_self _ _))
    rw [hcons] at h
    simp only [List.map_cons, List.cons.injEq] at h
    have hall : ∀ d < 10, Nat.digitChar d ≠ '-' := by decide
    exact hall d hd h.1

/-- The decimal rendering of clock readings is injective. -/
theorem int_toString_inj (a b : Int) (h : toString a = toString b) : a = b := by
  cases a with
  | ofNat n =>
      cases b with
      | ofNat m => exact congrArg Int.ofNat (nat_repr_inj n m h)
      | negSucc m =>
          exfalso
          have := congrArg String.data h
          simp [toString, instToStringInt, Nat.repr, List.asString] at this
          exact toDigits_head_ne_minus n _ this
  | negSucc n =>
      cases b with
      | ofNat m =>
          exfalso
          have := congrArg String.data h
          simp [toString, instToStringInt, Nat.repr, List.asString] at this
          exact toDigits_head_ne_minus m _ this.symm
      | negSucc m =>
          have := congrArg String.data h
          simp [toString, instToStringInt, Nat.repr, List.asString] at this
          have hnm := toDigits_inj _ _ this
          have : n = m := by omega
          rw [this]

theorem get_set_self (m : TimestampMap) (id : String) (t : Int) :
    (m.set id t).get id = some t := by
  induction m with
  | nil => simp [TimestampMap.set, TimestampMap.get, List.lookup]
  | cons kv rest ih =>
      obtain ⟨k, v⟩ := kv
      by_cases hk : k = id
      · subst hk
        simp [TimestampMap.set, TimestampMap.get, List.lookup]
      · have hbeq : (id == k) = false := by
          simpa using fun h : id = k => hk h.symm
        simp only [TimestampMap.set, hk, if_false, TimestampMap.get, List.lookup, hbeq]
        exact ih

theorem sendFrame_open (env : Demo.CaptureEnv) (s : Demo.State)
    (hsend : Demo.canSend s = true) (hcontent : env.hasContent = true) :
    (Demo.sendFrame env s).2.map Demo.OutMessage.frame_id = [toString env.idClock] ∧
      (Demo.sendFrame env s).1.sendTimestamps
        = s.sendTimestamps.set (toString env.idClock) env.sendClock ∧
      Demo.canSend (Demo.sendFrame env s).1 = true := by
  unfold Demo.canSend at hsend
  cases hws : s.wsRef with
  | none => simp [hws] at hsend
  | some ws =>
      cases hv : s.video with
      | none => simp [hws, hv] at hsend
      | some video =>
          cases hc : s.canvas with
          | none => simp [hws, hv, hc] at hsend
          | some c =>
              simp only [hws, hv, hc, Bool.and_eq_true, decide_eq_true_eq] at hsend
              obtain ⟨hopen, hdata⟩ := hsend
              by_cases hfps : env.fpsClock - s.lastFpsTime ≥ 1000
              · simp only [Demo.sendFrame, Demo.captureAndSendFrame, hws, hv, hc, hopen, hdata,
                  hcontent, Demo.Socket.send]
                simp [hfps, Demo.canSend, hws, hv, hc, hopen, hdata]
              · simp only [Demo.sendFrame, Demo.captureAndSendFrame, hws, hv, hc, hopen, hdata,
                  hcontent, Demo.Socket.send]
                simp [hfps, Demo.canSend, hws, hv, hc, hopen, hdata]

/-! ## C16: frame ids -/

/-- C16, as stated, fails: two frames sent from the connected state while
`Date.now()` reads 5 for both ids carry the same frame id "5"; the second
registration (its timestamp read at 6) adds no key and overwrites the
timestamp 5 of the first frame, which is still in flight. -/
theorem same_reading_same_id :
    (Demo.sendFrame ⟨5, 5, 5, true, "a"⟩ (Demo.connected 0)).2.map Demo.OutMessage.frame_id
      = ["5"] ∧
    (Demo.sendFrame ⟨5, 6, 6, true, "b"⟩
        (Demo.sendFrame ⟨5, 5, 5, true, "a"⟩ (Demo.connected 0)).1).2.map
        Demo.OutMessage.frame_id
      = ["5"] ∧
    (Demo.sendFrame ⟨5, 5, 5, true, "a"⟩ (Demo.connected 0)).1.sendTimestamps = [("5", 5)] ∧
    (Demo.sendFrame ⟨5, 6, 6, true, "b"⟩
        (Demo.sendFrame ⟨5, 5, 5, true, "a"⟩ (Demo.connected 0)).1).1.sendTimestamps
      = [("5", 6)] := by
  refine ⟨?_, ?_, ?_, ?_⟩ <;> decide

/-- C16, amended: a frame sent from a state that can send carries the decimal
rendering of the clock reading taken for its id, so two frames carry distinct
frame ids exactly when those two readings differ. A frame whose id is not yet
a key of the timestamp map adds it as a new key after the others; a frame
sent at the same reading as the frame before it adds no key and overwrites
that frame's timestamp. -/
theorem frame_id_is_clock (e₁ e₂ : Demo.CaptureEnv) (s : Demo.State)
    (hsend : Demo.canSend s = true) (h₁ : e₁.hasContent = true) (h₂ : e₂.hasContent = true) :
    (Demo.sendFrame e₁ s).2.map Demo.OutMessage.frame_id = [toString e₁.idClock] ∧
    (Demo.sendFrame e₂ (Demo.sendFrame e₁ s).1).2.map Demo.OutMessage.frame_id
      = [toString e₂.idClock] ∧
    (toString e₁.idClock = toString e₂.idClock ↔ e₁.idClock = e₂.idClock) ∧
    (toString e₁.idClock ∉ s.sendTimestamps.keys →
      (Demo.sendFrame e₁ s).1.sendTimestamps.keys
        = s.sendTimestamps.keys ++ [toString e₁.idClock]) ∧
    (e₂.idClock = e₁.idClock →
      (Demo.sendFrame e₂ (Demo.sendFrame e₁ s).1).1.sendTimestamps.keys
          = (Demo.sendFrame e₁ s).1.sendTimestamps.keys ∧
        (Demo.sendFrame e₂ (Demo.sendFrame e₁ s).1).1.sendTimestamps.get (toString e₁.idClock)
          = some e₂.sendClock) := by
  obtain ⟨hid₁, hmap₁, hsend₁⟩ := sendFrame_open e₁ s hsend h₁
  obtain ⟨hid₂, hmap₂, _⟩ := sendFrame_open e₂ (Demo.sendFrame e₁ s).1 hsend₁ h₂
  refine ⟨hid₁, hid₂, ⟨int_toString_inj _ _, fun h => by rw [h]⟩, ?_, ?_⟩
  · intro hnew
    rw [hmap₁]
    exact keys_set_new _ _ _ hnew
  · intro hsame
    rw [hmap₂, hsame]
    have hold : toString e₁.idClock ∈ (Demo.sendFrame e₁ s).1.sendTimestamps.keys := by
      rw [← lookup_isSome_iff_mem_keys, hmap₁]
      have hget := get_set_self s.sendTimestamps (toString e₁.idClock) e₁.sendClock
      unfold TimestampMap.get at hget
      unfold TimestampMap.has
      rw [hget]
      rfl
    exact ⟨keys_set_old _ _ _ hold, get_set_self _ _ _⟩

/-- Witness for C16: two frames sent from the connected state at the
readings 5 and 7. -/
theorem frame_id_is_clock_witness :
    Demo.canSend (Demo.connected 0) = true ∧
    (Demo.sendFrame (Demo.captureAt 7) (Demo.sendFrame (Demo.captureAt 5)
        (Demo.connected 0)).1).2.map Demo.OutMessage.frame_id
      = [toString (Demo.captureAt 7).idClock] :=
  ⟨rfl, (frame_id_is_clock (Demo.captureAt 5) (Demo.captureAt 7) (Demo.connected 0)
    rfl rfl rfl).2.1⟩

/-! ## C23: every normal range is a proper interval -/

theorem ranges_proper (bodyPart movementType : String) (movements : List (String × (ℚ × ℚ)))
    (r : ℚ × ℚ) (hb : (bodyPart, movements) ∈ Demo.ranges) (hm : (movementType, r) ∈ movements) :
    r.1 < r.2 := by
  simp only [Demo.ranges, List.mem_cons, Prod.mk.injEq, List.mem_singleton,
    List.not_mem_nil, or_false] at hb
  rcases hb with ⟨rfl, rfl⟩ | ⟨rfl, rfl⟩ | ⟨rfl, rfl⟩ | ⟨rfl, rfl⟩ | ⟨rfl, rfl⟩ | ⟨rfl, rfl⟩ <;>
    simp only [List.mem_cons, Prod.mk.injEq, List.mem_singleton, List.not_mem_nil,
      or_false] at hm
  · rcases hm with ⟨rfl, rfl⟩ | ⟨rfl, rfl⟩ | ⟨rfl, rfl⟩ | ⟨rfl, rfl⟩ <;> norm_num
  · rcases hm with ⟨rfl, rfl⟩ | ⟨rfl, rfl⟩ | ⟨rfl, rfl⟩ | ⟨rfl, rfl⟩ <;> norm_num
  · rcases hm with ⟨rfl, rfl⟩ | ⟨rfl, rfl⟩ <;> norm_num
  · rcases hm with ⟨rfl, rfl⟩ | ⟨rfl, rfl⟩ | ⟨rfl, rfl⟩ <;> norm_num
  · rcases hm with ⟨rfl, rfl⟩ | ⟨rfl, rfl⟩ <;> norm_num
  · rcases hm with ⟨rfl, rfl⟩ | ⟨rfl, rfl⟩ <;> norm_num

/-- A range returned by `getNormalRange`, on any pair of names, has
`lo < hi`. -/
theorem getNormalRangeValue_range_lt (builtinTruthy : String → String → Bool)
    (bodyPart movementType : String) (r : ℚ × ℚ)
    (h : Demo.getNormalRangeValue builtinTruthy bodyPart movementType
      = Demo.RangeValue.range r) : r.1 < r.2 := by
  unfold Demo.getNormalRangeValue at h
  cases h1 : List.lookup bodyPart Demo.ranges with
  | none =>
      rw [h1] at h
      dsimp only at h
      split at h
      · exact absurd h (by simp)
      · have hr : r = (0, 90) := by
          injection h with h
          exact h.symm
        subst hr
        norm_num
  | some movements =>
      rw [h1] at h
      dsimp only at h
      cases h2 : List.lookup movementType movements with
      | none =>
          rw [h2] at h
          dsimp only at h
          split at h
          · exact absurd h (by simp)
          · have hr : r = (0, 90) := by
              injection h with h
              exact h.symm
            subst hr
            norm_num
      | some r1 =>
          rw [h2] at h
          dsimp only at h
          have hr : r = r1 := by
            injection h with h
            exact h.symm
          subst hr
          exact ranges_proper bodyPart movementType movements r
            (lookup_some_mem _ _ _ h1) (lookup_some_mem _ _ _ h2)

/-- C23, as stated, fails: for the body part `shoulder` and the movement type
`toString` the value of `getNormalRange` is not a range but the inherited
built-in function, and the marker position computed from it for the angle
`30` is `NaN`. -/
theorem markerPosition_inherited_undefined :
    Demo.getNormalRangeValue (fun _ _ => false) "shoulder" "toString"
      = Demo.RangeValue.builtin ∧
    Demo.markerPosition
      (Demo.getNormalRangeValue (fun _ _ => false) "shoulder" "toString") 30 = none := by
  constructor
  · decide
  · have h : Demo.getNormalRangeValue (fun _ _ => false) "shoulder" "toString"
        = Demo.RangeValue.builtin := by decide
    rw [h]
    rfl

/-- C23, amended: every range `[lo, hi]` that `getNormalRange` returns, for
any body part and movement type (an entry of the table or the default
`[0, 90]`), has `lo < hi`; so whenever it returns a range the divisor
`hi - lo` of the gauge normalisation is not zero, and for every current angle
the marker position is defined, equal to the clamped value `markerX`, and lies
on the bar, in `[20, 270]`. It returns a range, the one the overlay is drawn
with, for every body part and movement type that are not names of properties
inherited from `Object.prototype`. -/
theorem getNormalRangeValue_proper (builtinTruthy : String → String → Bool)
    (bodyPart movementType : String) (r : ℚ × ℚ)
    (h : Demo.getNormalRangeValue builtinTruthy bodyPart movementType
      = Demo.RangeValue.range r) :
    r.1 < r.2 ∧ r.2 - r.1 ≠ 0 ∧
    (∀ current : ℚ,
      Demo.markerPosition (Demo.getNormalRangeValue builtinTruthy bodyPart movementType) current
          = some (Demo.markerX r.1 r.2 current) ∧
        20 ≤ Demo.markerX r.1 r.2 current ∧ Demo.markerX r.1 r.2 current ≤ 270) ∧
    (∀ movements r1, (bodyPart, movements) ∈ Demo.ranges → (movementType, r1) ∈ movements →
        r1.1 < r1.2) ∧
    (∀ b m, b ∉ Demo.objectPrototypeKeys → m ∉ Demo.objectPrototypeKeys →
        Demo.getNormalRangeValue builtinTruthy b m
          = Demo.RangeValue.range (Demo.getNormalRange b m)) := by
  have hlt : r.1 < r.2 := getNormalRangeValue_range_lt builtinTruthy bodyPart movementType r h
  have hne : r.2 - r.1 ≠ 0 := by
    intro h0
    linarith
  refine ⟨hlt, hne, ?_, fun movements r1 hb hm =>
    ranges_proper bodyPart movementType movements r1 hb hm,
    fun b m hb hm => getNormalRangeValue_own builtinTruthy b m hb hm⟩
  intro current
  refine ⟨?_, ?_, ?_⟩
  · rw [h]
    simp only [Demo.markerPosition, if_neg hne]
  · unfold Demo.markerX
    have := le_max_left (0 : ℚ) (min 250 ((current - r.1) / (r.2 - r.1) * 250))
    linarith
  · unfold Demo.markerX
    have : max 0 (min 250 ((current - r.1) / (r.2 - r.1) * 250)) ≤ (250 : ℚ) :=
      max_le (by norm_num) (min_le_left _ _)
    linarith

/-- Witness for C23: `lower_back` with `flexion` returns the range `[0, 60]`. -/
theorem getNormalRangeValue_proper_witness :
    Demo.getNormalRangeValue (fun _ _ => true) "lower_back" "flexion"
      = Demo.RangeValue.range (0, 60) ∧
    ((0 : ℚ), (60 : ℚ)).1 < ((0 : ℚ), (60 : ℚ)).2 :=
  ⟨by decide,
   (getNormalRangeValue_proper (fun _ _ => true) "lower_back" "flexion" (0, 60)
     (by decide)).1⟩

/-! ## C24: the two skeleton tables -/

theorem demo_table_eq :
    Demo.skeletonConnections
      = Http.skeletonConnections ++ [("LAnkle", "LBigToe"), ("RAnkle", "RBigToe")] := rfl

theorem drawConnection_absent (keypoints : KeypointMap) (edge : String × String)
    (h : keypoints.get edge.1 = none ∨ keypoints.get edge.2 = none) :
    drawConnection keypoints edge = [] := by
  unfold drawConnection
  rcases h with h | h
  · rw [h]
  · cases h1 : keypoints.get edge.1 <;> simp [h]

theorem presentEdges_append (t₁ t₂ : List (String × String)) (keypoints : KeypointMap) :
    presentEdges (t₁ ++ t₂) keypoints
      = presentEdges t₁ keypoints ++ presentEdges t₂ keypoints := by
  simp [presentEdges, List.filterMap_append]

/-- C24: the edge table of `HttpPoseAnalysis` has 14 entries and is the first
14 entries of the 16-entry table of `ROMAnalysisDemo`, which adds only
LAnkle-LBigToe and RAnkle-RBigToe. Hence for a keypoint map that lacks
LBigToe or LAnkle and lacks RBigToe or RAnkle the two skeleton loops issue the
same calls and draw the same sequence of edges, and for a map containing
LAnkle and LBigToe they differ. -/
theorem tables_agree (keypoints : KeypointMap) :
    Http.skeletonConnections.length = 14 ∧
    Demo.skeletonConnections.length = 16 ∧
    Http.skeletonConnections = Demo.skeletonConnections.take 14 ∧
    Demo.skeletonConnections.drop 14 = [("LAnkle", "LBigToe"), ("RAnkle", "RBigToe")] ∧
    (((keypoints.get "LBigToe" = none ∨ keypoints.get "LAnkle" = none) ∧
        (keypoints.get "RBigToe" = none ∨ keypoints.get "RAnkle" = none)) →
      drawConnections Demo.skeletonConnections keypoints
          = drawConnections Http.skeletonConnections keypoints ∧
        presentEdges Demo.skeletonConnections keypoints
          = presentEdges Http.skeletonConnections keypoints) ∧
    (∀ ankle toe, keypoints.get "LAnkle" = some ankle → keypoints.get "LBigToe" = some toe →
      drawConnections Demo.skeletonConnections keypoints
          ≠ drawConnections Http.skeletonConnections keypoints ∧
        presentEdges Demo.skeletonConnections keypoints
          ≠ presentEdges Http.skeletonConnections keypoints) := by
  refine ⟨rfl, rfl, rfl, rfl, ?_, ?_⟩
  · rintro ⟨hleft, hright⟩
    have hl : drawConnection keypoints ("LAnkle", "LBigToe") = [] :=
      drawConnection_absent keypoints _ (by rcases hleft with h | h; exacts [Or.inr h, Or.inl h])
    have hr : drawConnection keypoints ("RAnkle", "RBigToe") = [] :=
      drawConnection_absent keypoints _ (by rcases hright with h | h; exacts [Or.inr h, Or.inl h])
    have hedges : presentEdges Demo.skeletonConnections keypoints
        = presentEdges Http.skeletonConnections keypoints := by
      rw [demo_table_eq, presentEdges_append]
      have : presentEdges [("LAnkle", "LBigToe"), ("RAnkle", "RBigToe")] keypoints = [] := by
        unfold presentEdges
        rcases hleft with h | h <;> rcases hright with h' | h' <;>
          cases h1 : keypoints.get "LAnkle" <;> cases h2 : keypoints.get "RAnkle" <;>
          cases h3 : keypoints.get "LBigToe" <;> cases h4 : keypoints.get "RBigToe" <;>
          simp_all
      rw [this, List.append_nil]
    constructor
    · rw [demo_table_eq]
      unfold drawConnections
      rw [List.flatMap_append]
      simp [hl, hr]
    · exact hedges
  · intro ankle toe hankle htoe
    have hextra : presentEdges [("LAnkle", "LBigToe"), ("RAnkle", "RBigToe")] keypoints ≠ [] := by
      unfold presentEdges
      simp [hankle, htoe]
    have hedges : presentEdges Demo.skeletonConnections keypoints
        ≠ presentEdges Http.skeletonConnections keypoints := by
      rw [demo_table_eq, presentEdges_append]
      intro h
      exact hextra (List.append_right_eq_self.mp h)
    refine ⟨?_, hedges⟩
    intro h
    have hlen := congrArg List.length h
    rw [demo_table_eq] at hlen
    unfold drawConnections at hlen
    rw [List.flatMap_append] at hlen
    simp [drawConnection, hankle, htoe] at hlen

/-- Witness for C24: a map holding only `Neck` and `Hip`. -/
theorem tables_agree_witness :
    KeypointMap.get [("Neck", ⟨1, 2⟩), ("Hip", ⟨3, 4⟩)] "LBigToe" = none ∧
    KeypointMap.get [("Neck", ⟨1, 2⟩), ("Hip", ⟨3, 4⟩)] "RBigToe" = none ∧
    drawConnections Demo.skeletonConnections [("Neck", ⟨1, 2⟩), ("Hip", ⟨3, 4⟩)]
      = drawConnections Http.skeletonConnections [("Neck", ⟨1, 2⟩), ("Hip", ⟨3, 4⟩)] :=
  ⟨rfl, rfl,
   ((tables_agree [("Neck", ⟨1, 2⟩), ("Hip", ⟨3, 4⟩)]).2.2.2.2.1
      ⟨Or.inl rfl, Or.inl rfl⟩).1⟩

/-! ## C21: the trunk-angle label -/

theorem drawConnections_no_label (table : List (String × String)) (keypoints : KeypointMap) :
    ∀ op ∈ drawConnections table keypoints, op.isAngleLabel = false := by
  intro op hop
  unfold drawConnections at hop
  rw [List.mem_flatMap] at hop
  obtain ⟨edge, _, hmem⟩ := hop
  unfold drawConnection at hmem
  cases h1 : keypoints.get edge.1 <;> cases h2 : keypoints.get edge.2 <;>
    simp [h1, h2] at hmem
  rcases hmem with rfl | rfl | rfl | rfl <;> rfl

theorem drawKeypoints_no_label (radius : ℚ) (keypoints : KeypointMap) :
    ∀ op ∈ drawKeypoints radius keypoints, op.isAngleLabel = false := by
  intro op hop
  unfold drawKeypoints at hop
  rw [List.mem_flatMap] at hop
  obtain ⟨entry, _, hmem⟩ := hop
  simp at hmem
  rcases hmem with rfl | rfl | rfl <;> rfl

theorem drawRomInfo_no_label (rom : Option RomSample) :
    ∀ op ∈ Http.drawRomInfo rom, op.isAngleLabel = false := by
  intro op hop
  cases rom with
  | none => simp [Http.drawRomInfo] at hop
  | some r =>
      simp [Http.drawRomInfo] at hop
      rcases hop with rfl | rfl | rfl | rfl | rfl | rfl | rfl | rfl <;> rfl

theorem drawRomOverlay_no_label (env : Demo.RenderEnv) :
    ∀ op ∈ Demo.drawRomOverlay env, op.isAngleLabel = false := by
  intro op hop
  unfold Demo.drawRomOverlay at hop
  cases hrom : env.romData with
  | none => simp [hrom] at hop
  | some r =>
      simp only [hrom, List.mem_cons, List.mem_singleton, List.not_mem_nil, or_false] at hop
      rcases hop with rfl | rfl | rfl | rfl | rfl | rfl | rfl | rfl | rfl | rfl | rfl | rfl |
        rfl | rfl | rfl | rfl <;> rfl

theorem drawPerformance_no_label (c : Canvas) (processingTime : Int) :
    ∀ op ∈ Demo.drawPerformance c processingTime, op.isAngleLabel = false := by
  intro op hop
  simp [Demo.drawPerformance] at hop
  rcases hop with rfl | rfl | rfl <;> rfl

theorem drawHighlight_no_label (bodyPart : String) (colors : Option Demo.Colors)
    (keypoints : KeypointMap) (ops : List DrawOp)
    (h : Demo.drawHighlight bodyPart colors keypoints = Except.ok ops) :
    ∀ op ∈ ops, op.isAngleLabel = false := by
  intro op hop
  unfold Demo.drawHighlight at h
  split at h
  · split at h
    · split at h
      · exact absurd h (by simp)
      · simp only [Except.ok.injEq] at h
        subst h
        simp at hop
        rcases hop with rfl | rfl | rfl | rfl | rfl | rfl <;> rfl
    · simp only [Except.ok.injEq] at h
      subst h
      simp at hop
  · simp only [Except.ok.injEq] at h
    subst h
    simp at hop


theorem drawTrunkArc_none (bodyPart : String) (colors : Option Demo.Colors)
    (keypoints : KeypointMap) (angles : AngleSet)
    (h : angles.trunk = none ∨ keypoints.get "Neck" = none ∨ keypoints.get "Hip" = none ∨
      bodyPart ≠ "lower_back") :
    Demo.drawTrunkArc bodyPart colors keypoints angles = Except.ok [] := by
  unfold Demo.drawTrunkArc
  by_cases hb : bodyPart = "lower_back"
  · rw [if_pos hb]
    rcases h with h | h | h | h
    · rw [h]
    · cases angles.trunk <;> simp [h]
    · cases angles.trunk <;> cases keypoints.get "Neck" <;> simp [h]
    · exact absurd hb h
  · rw [if_neg hb]

theorem drawAngles_labels (bodyPart : String) (colors : Option Demo.Colors)
    (keypoints : KeypointMap) (angles : Option AngleSet) (angleOps : List DrawOp)
    (h : angles.bind AngleSet.trunk = none ∨ keypoints.get "Neck" = none ∨
      keypoints.get "Hip" = none ∨ bodyPart ≠ "lower_back")
    (hrun : Demo.drawAngles bodyPart colors keypoints angles = Except.ok angleOps) :
    ∀ op ∈ angleOps, op.isAngleLabel = true → bodyPart = "elbow" := by
  intro op hop hlabel
  by_contra hne
  cases angles with
  | none =>
      simp only [Demo.drawAngles, Except.ok.injEq] at hrun
      subst hrun
      simp at hop
  | some a =>
      have htrunk := drawTrunkArc_none bodyPart colors keypoints a (by simpa using h)
      have helbow : Demo.drawElbowAngle bodyPart colors keypoints a = Except.ok [] := by
        unfold Demo.drawElbowAngle
        rw [if_neg hne]
      simp only [Demo.drawAngles, Demo.drawAngleVisualization, htrunk, helbow,
        Except.ok.injEq] at hrun
      subst hrun
      simp at hop
      rcases hop with rfl | rfl <;> simp [DrawOp.isAngleLabel] at hlabel

/-- C21: with body part `lower_back`, a defined trunk angle and a keypoint map
holding `Neck` and `Hip`, both renderers stroke the Neck-to-Hip segment
emphasized (stroke style "#00ffff", line width 4) and write the trunk angle at
`(mx + d, my)`, where `(mx, my)` is the midpoint of the segment and `d` is 20
in `HttpPoseAnalysis` and 70 in `ROMAnalysisDemo`. When the trunk angle is
undefined, or `Neck` or `Hip` is missing, or the body part is not
`lower_back`, the trunk block of either renderer issues no call:
`HttpPoseAnalysis` writes no angle label at all, and the only angle label
`ROMAnalysisDemo` can write is that of its elbow block. -/
theorem trunk_label (keypoints : KeypointMap) (c : Canvas) (env : Demo.RenderEnv)
    (angles : Option AngleSet) :
    (∀ neck hip trunk elbow, env.bodyPart = "lower_back" →
      keypoints.get "Neck" = some neck → keypoints.get "Hip" = some hip →
      angles = some { trunk := some trunk, elbow := elbow } →
      Http.drawTrunkAngle env.bodyPart keypoints angles
          = [DrawOp.strokeStyle "#00ffff", DrawOp.lineWidth 4]
            ++ segmentCalls neck hip
            ++ [DrawOp.fillStyle "#00ffff", DrawOp.font "bold 24px Arial",
                DrawOp.fillText (Label.angle trunk)
                  ((neck.x + hip.x) / 2 + 20) ((neck.y + hip.y) / 2)] ∧
        (∃ before,
          Http.drawSkeleton (some c) env.romData env.bodyPart (some keypoints) angles
            = before ++ Http.drawTrunkAngle env.bodyPart keypoints angles) ∧
        Demo.drawHighlight env.bodyPart (Demo.movementColors env.bodyPart) keypoints
          = Except.ok
              ([DrawOp.strokeStyle "#00ffff", DrawOp.lineWidth 4] ++ segmentCalls neck hip) ∧
        Demo.drawAngles env.bodyPart (Demo.movementColors env.bodyPart) keypoints angles
          = Except.ok
              [DrawOp.save, DrawOp.strokeStyle "#00ffff", DrawOp.lineWidth 3, DrawOp.beginPath,
               DrawOp.arc ((neck.x + hip.x) / 2) ((neck.y + hip.y) / 2) 60
                 (ArcSpan.fromVertical trunk),
               DrawOp.stroke, DrawOp.fillStyle "#00ffff", DrawOp.font "bold 24px Arial",
               DrawOp.shadowColor "black", DrawOp.shadowBlur 4,
               DrawOp.fillText (Label.angle trunk)
                 ((neck.x + hip.x) / 2 + 70) ((neck.y + hip.y) / 2),
               DrawOp.restore] ∧
        (∃ ops before between after,
          Demo.drawSkeleton (some c) true env (some keypoints) angles = Except.ok ops ∧
          ops = before
            ++ ([DrawOp.strokeStyle "#00ffff", DrawOp.lineWidth 4] ++ segmentCalls neck hip)
            ++ between
            ++ [DrawOp.fillText (Label.angle trunk)
                  ((neck.x + hip.x) / 2 + 70) ((neck.y + hip.y) / 2)]
            ++ after)) ∧
    ((angles.bind AngleSet.trunk = none ∨ keypoints.get "Neck" = none ∨
        keypoints.get "Hip" = none ∨ env.bodyPart ≠ "lower_back") →
      Http.drawTrunkAngle env.bodyPart keypoints angles = [] ∧
      (∀ op ∈ Http.drawSkeleton (some c) env.romData env.bodyPart (some keypoints) angles,
        op.isAngleLabel = false) ∧
      (∀ a, angles = some a →
        Demo.drawTrunkArc env.bodyPart (Demo.movementColors env.bodyPart) keypoints a
          = Except.ok []) ∧
      (∀ ops, Demo.drawSkeleton (some c) true env (some keypoints) angles = Except.ok ops →
        ∀ op ∈ ops, op.isAngleLabel = true → env.bodyPart = "elbow")) := by
  constructor
  · intro neck hip trunk elbow hbody hneck hhip hangles
    have hlen : keypoints.length ≠ 0 := by
      intro h
      rw [List.length_eq_zero.mp h] at hneck
      simp [KeypointMap.get, List.lookup] at hneck
    have hhttp : Http.drawTrunkAngle env.bodyPart keypoints angles
        = [DrawOp.strokeStyle "#00ffff", DrawOp.lineWidth 4]
          ++ segmentCalls neck hip
          ++ [DrawOp.fillStyle "#00ffff", DrawOp.font "bold 24px Arial",
              DrawOp.fillText (Label.angle trunk)
                ((neck.x + hip.x) / 2 + 20) ((neck.y + hip.y) / 2)] := by
      simp [Http.drawTrunkAngle, hbody, hneck, hhip, hangles, segmentCalls]
    have hhigh : Demo.drawHighlight env.bodyPart (Demo.movementColors env.bodyPart) keypoints
        = Except.ok
            ([DrawOp.strokeStyle "#00ffff", DrawOp.lineWidth 4] ++ segmentCalls neck hip) := by
      simp [Demo.drawHighlight, hbody, hneck, hhip, Demo.movementColors, List.lookup,
        segmentCalls]
    have hang : Demo.drawAngles env.bodyPart (Demo.movementColors env.bodyPart) keypoints angles
        = Except.ok
            [DrawOp.save, DrawOp.strokeStyle "#00ffff", DrawOp.lineWidth 3, DrawOp.beginPath,
             DrawOp.arc ((neck.x + hip.x) / 2) ((neck.y + hip.y) / 2) 60
               (ArcSpan.fromVertical trunk),
             DrawOp.stroke, DrawOp.fillStyle "#00ffff", DrawOp.font "bold 24px Arial",
             DrawOp.shadowColor "black", DrawOp.shadowBlur 4,
             DrawOp.fillText (Label.angle trunk)
               ((neck.x + hip.x) / 2 + 70) ((neck.y + hip.y) / 2),
             DrawOp.restore] := by
      simp [Demo.drawAngles, Demo.drawAngleVisualization, Demo.drawTrunkArc,
        Demo.drawElbowAngle, hbody, hneck, hhip, hangles, Demo.movementColors, List.lookup]
    refine ⟨hhttp, ⟨[DrawOp.clearRect 0 0 c.width c.height, DrawOp.strokeStyle "#00ff00",
        DrawOp.lineWidth 3] ++ drawConnections Http.skeletonConnections keypoints
        ++ [DrawOp.fillStyle "#ff0000"] ++ drawKeypoints 5 keypoints
        ++ Http.drawRomInfo env.romData, ?_⟩, hhigh, hang, ?_⟩
    · simp [Http.drawSkeleton, hlen]
    · refine ⟨([DrawOp.clearRect 0 0 c.width c.height,
          DrawOp.strokeStyle "rgba(0, 255, 0, 0.6)", DrawOp.lineWidth 2]
          ++ drawConnections Demo.skeletonConnections keypoints)
        ++ ([DrawOp.strokeStyle "#00ffff", DrawOp.lineWidth 4] ++ segmentCalls neck hip)
        ++ ([DrawOp.fillStyle "#ff0000"] ++ drawKeypoints 4 keypoints
          ++ [DrawOp.save, DrawOp.strokeStyle "#00ffff", DrawOp.lineWidth 3, DrawOp.beginPath,
              DrawOp.arc ((neck.x + hip.x) / 2) ((neck.y + hip.y) / 2) 60
                (ArcSpan.fromVertical trunk),
              DrawOp.stroke, DrawOp.fillStyle "#00ffff", DrawOp.font "bold 24px Arial",
              DrawOp.shadowColor "black", DrawOp.shadowBlur 4])
        ++ [DrawOp.fillText (Label.angle trunk)
              ((neck.x + hip.x) / 2 + 70) ((neck.y + hip.y) / 2)]
        ++ ([DrawOp.restore] ++ Demo.drawRomOverlay env
          ++ Demo.drawPerformance c env.processingTime),
        [DrawOp.clearRect 0 0 c.width c.height,
          DrawOp.strokeStyle "rgba(0, 255, 0, 0.6)", DrawOp.lineWidth 2]
          ++ drawConnections Demo.skeletonConnections keypoints,
        [DrawOp.fillStyle "#ff0000"] ++ drawKeypoints 4 keypoints
          ++ [DrawOp.save, DrawOp.strokeStyle "#00ffff", DrawOp.lineWidth 3, DrawOp.beginPath,
              DrawOp.arc ((neck.x + hip.x) / 2) ((neck.y + hip.y) / 2) 60
                (ArcSpan.fromVertical trunk),
              DrawOp.stroke, DrawOp.fillStyle "#00ffff", DrawOp.font "bold 24px Arial",
              DrawOp.shadowColor "black", DrawOp.shadowBlur 4],
        [DrawOp.restore] ++ Demo.drawRomOverlay env
          ++ Demo.drawPerformance c env.processingTime, ?_, rfl⟩
      simp only [Demo.drawSkeleton, hlen, hhigh, hang]
      simp
  · intro hneg
    have hhttp : Http.drawTrunkAngle env.bodyPart keypoints angles = [] := by
      unfold Http.drawTrunkAngle
      by_cases hb : env.bodyPart = "lower_back"
      · rw [if_pos hb]
        rcases hneg with h | h | h | h
        · rw [h]
        · cases angles.bind AngleSet.trunk <;> simp [h]
        · cases angles.bind AngleSet.trunk <;> cases keypoints.get "Neck" <;> simp [h]
        · exact absurd hb h
      · rw [if_neg hb]
    refine ⟨hhttp, ?_, ?_, ?_⟩
    · intro op hop
      unfold Http.drawSkeleton at hop
      by_cases hlen : keypoints.length = 0
      · simp [hlen] at hop
        subst hop
        rfl
      · simp only [hlen, if_false, hhttp, List.append_nil, List.mem_cons, List.mem_append,
          List.mem_singleton, List.not_mem_nil, or_false] at hop
        rcases hop with rfl | ((((rfl | rfl) | h) | rfl) | h) | h
        · rfl
        · rfl
        · rfl
        · exact drawConnections_no_label _ _ op h
        · rfl
        · exact drawKeypoints_no_label _ _ op h
        · exact drawRomInfo_no_label _ op h
    · intro a ha
      exact drawTrunkArc_none _ _ _ a (by simpa [ha] using hneg)
    · intro ops hrun op hop hlabel
      by_cases hlen : keypoints.length = 0
      · simp [Demo.drawSkeleton, hlen] at hrun
        subst hrun
        simp at hop
        subst hop
        simp [DrawOp.isAngleLabel] at hlabel
      · obtain ⟨highlight, hh⟩ := drawHighlight_ok env.bodyPart keypoints
        obtain ⟨angleOps, ha⟩ := drawAngles_ok env.bodyPart keypoints angles
        simp only [Demo.drawSkeleton, hlen, hh, ha, Bool.true_eq_false, if_false,
          Except.ok.injEq] at hrun
        subst hrun
        simp only [List.mem_cons, List.mem_append, List.mem_singleton, List.not_mem_nil,
          or_false] at hop
        have hno : ∀ {P : Prop}, op.isAngleLabel = false → P := by
          intro P h
          rw [h] at hlabel
          exact absurd hlabel (by decide)
        rcases hop with (((((((rfl | rfl | rfl) | h) | h) | rfl) | h) | h) | h) | h
        · exact hno rfl
        · exact hno rfl
        · exact hno rfl
        · exact hno (drawConnections_no_label _ _ op h)
        · exact hno (drawHighlight_no_label _ _ _ _ hh op h)
        · exact hno rfl
        · exact hno (drawKeypoints_no_label _ _ op h)
        · exact drawAngles_labels _ _ _ _ _ hneg ha op h hlabel
        · exact hno (drawRomOverlay_no_label _ op h)
        · exact hno (drawPerformance_no_label _ _ op h)

/-- Witness for C21: `Neck` at (100, 50), `Hip` at (100, 200) and a trunk
angle of 30 degrees. -/
theorem trunk_label_witness :
    KeypointMap.get [("Neck", ⟨100, 50⟩), ("Hip", ⟨100, 200⟩)] "Neck" = some ⟨100, 50⟩ ∧
    Http.drawTrunkAngle "lower_back" [("Neck", ⟨100, 50⟩), ("Hip", ⟨100, 200⟩)]
        (some { trunk := some 30, elbow := none })
      = [DrawOp.strokeStyle "#00ffff", DrawOp.lineWidth 4]
        ++ segmentCalls ⟨100, 50⟩ ⟨100, 200⟩
        ++ [DrawOp.fillStyle "#00ffff", DrawOp.font "bold 24px Arial",
            DrawOp.fillText (Label.angle 30) ((100 + 100) / 2 + 20) ((50 + 200) / 2)] :=
  ⟨rfl,
   ((trunk_label [("Neck", ⟨100, 50⟩), ("Hip", ⟨100, 200⟩)] ⟨640, 480⟩
      ⟨none, "lower_back", "flexion", 0⟩ (some { trunk := some 30, elbow := none })).1
    ⟨100, 50⟩ ⟨100, 200⟩ 30 none rfl rfl rfl rfl).1⟩

/-! ## C22: the FPS counter -/

theorem sendFrame_fps (env : Demo.CaptureEnv) (s : Demo.State)
    (hsend : Demo.canSend s = true) (hcontent : env.hasContent = true) :
    Demo.fpsState (Demo.sendFrame env s).1 = fpsStep (Demo.fpsState s) env.fpsClock := by
  unfold Demo.canSend at hsend
  cases hws : s.wsRef with
  | none => simp [hws] at hsend
  | some ws =>
      cases hv : s.video with
      | none => simp [hws, hv] at hsend
      | some video =>
          cases hc : s.canvas with
          | none => simp [hws, hv, hc] at hsend
          | some c =>
              simp only [hws, hv, hc, Bool.and_eq_true, decide_eq_true_eq] at hsend
              obtain ⟨hopen, hdata⟩ := hsend
              by_cases hfps : env.fpsClock - s.lastFpsTime ≥ 1000
              · simp only [Demo.sendFrame, Demo.captureAndSendFrame, hws, hv, hc, hopen, hdata,
                  hcontent, Demo.Socket.send]
                simp [hfps, Demo.fpsState, fpsStep]
              · simp only [Demo.sendFrame, Demo.captureAndSendFrame, hws, hv, hc, hopen, hdata,
                  hcontent, Demo.Socket.send]
                simp [hfps, Demo.fpsState, fpsStep]

theorem analyzeSingleFrame_fps (closureRom : Option RomSample) (closureBodyPart : String)
    (env : Http.RequestEnv) (s : Http.State) (status : Nat) (text : String) (result : Message)
    (hready : Http.startsRequest env.blob s = true)
    (hresponse : env.outcome = Http.FetchOutcome.response status text (Except.ok result))
    (hstatus : Http.responseOk status = true) :
    Http.fpsState (Http.analyzeSingleFrame closureRom closureBodyPart env s).1
      = fpsStep (Http.fpsState s) env.now := by
  have hguard : ¬ (s.video = false ∨ s.canvas = none ∨ s.isVideoReady = false) := by
    intro h
    simp [Http.startsRequest, h] at hready
  have hblob : ¬ env.blob = false := by
    intro h
    simp [Http.startsRequest, h] at hready
  unfold Http.analyzeSingleFrame
  rw [if_neg hguard, if_neg hblob]
  simp only [hresponse, hstatus]
  by_cases hfps : env.now - s.lastFpsTime ≥ 1000 <;>
    cases hrom : result.rom <;> cases hpose : result.pose_detected <;>
    simp [hfps, Http.fpsState, fpsStep]

theorem fpsRun_counts (w : Int) (f : Nat) (readings : List Int) :
    ∀ (c : Nat), (∀ t ∈ readings, t - w < 1000) →
      readings.foldl fpsStep { count := c, windowStart := w, fps := f }
        = { count := c + readings.length, windowStart := w, fps := f } := by
  induction readings with
  | nil => intro c _; rfl
  | cons t rest ih =>
      intro c hall
      have ht : ¬ t - w ≥ 1000 := by
        have := hall t (List.mem_cons_self _ _)
        omega
      have hstep : fpsStep { count := c, windowStart := w, fps := f } t
          = { count := c + 1, windowStart := w, fps := f } := by
        simp [fpsStep, ht]
      rw [List.foldl_cons, hstep, ih (c + 1) (fun t' ht' => hall t' (List.mem_cons_of_mem _ ht'))]
      simp only [List.length_cons]
      congr 1
      omega

/-- C22: each counted frame (a frame sent by `captureAndSendFrame`, a parsed
success response in `analyzeSingleFrame`) observed at clock value `now` takes
the FPS state (count `c`, window start `w`, displayed fps `f`) to
`(0, now, c + 1)` when `now - w ≥ 1000` and to `(c + 1, w, f)` otherwise.
Consequently the counter goes up by one on every frame except when it is
reset to 0 at a window boundary, and a displayed fps value set at a boundary
is the number of frames counted since the previous reset, the closing frame
included. -/
theorem fps_step (envD : Demo.CaptureEnv) (sD : Demo.State)
    (closureRom : Option RomSample) (closureBodyPart : String) (req : Http.RequestEnv)
    (sH : Http.State) (status : Nat) (text : String) (result : Message)
    (hsend : Demo.canSend sD = true) (hcontent : envD.hasContent = true)
    (hready : Http.startsRequest req.blob sH = true)
    (hresponse : req.outcome = Http.FetchOutcome.response status text (Except.ok result))
    (hstatus : Http.responseOk status = true) :
    Demo.fpsState (Demo.sendFrame envD sD).1
      = (if envD.fpsClock - sD.lastFpsTime ≥ 1000
          then { count := 0, windowStart := envD.fpsClock, fps := sD.frameCount + 1 }
          else { count := sD.frameCount + 1, windowStart := sD.lastFpsTime, fps := sD.fps }) ∧
    Http.fpsState (Http.analyzeSingleFrame closureRom closureBodyPart req sH).1
      = (if req.now - sH.lastFpsTime ≥ 1000
          then { count := 0, windowStart := req.now, fps := sH.frameCount + 1 }
          else { count := sH.frameCount + 1, windowStart := sH.lastFpsTime, fps := sH.fps }) ∧
    Demo.fpsState (Demo.sendFrame envD sD).1 = fpsStep (Demo.fpsState sD) envD.fpsClock ∧
    Http.fpsState (Http.analyzeSingleFrame closureRom closureBodyPart req sH).1
      = fpsStep (Http.fpsState sH) req.now ∧
    (∀ st now, (fpsStep st now).count = st.count + 1 ∨
      (now - st.windowStart ≥ 1000 ∧ (fpsStep st now).count = 0)) ∧
    (∀ st now, (fpsStep st now).fps ≠ st.fps → now - st.windowStart ≥ 1000) ∧
    (∀ (w : Int) (f : Nat) (readings : List Int) (now : Int),
      (∀ t ∈ readings, t - w < 1000) → now - w ≥ 1000 →
      fpsStep (readings.foldl fpsStep { count := 0, windowStart := w, fps := f }) now
        = { count := 0, windowStart := now, fps := readings.length + 1 }) := by
  have hD := sendFrame_fps envD sD hsend hcontent
  have hH := analyzeSingleFrame_fps closureRom closureBodyPart req sH status text result
    hready hresponse hstatus
  refine ⟨?_, ?_, hD, hH, ?_, ?_, ?_⟩
  · rw [hD]
    rfl
  · rw [hH]
    rfl
  · intro st now
    by_cases h : now - st.windowStart ≥ 1000
    · exact Or.inr ⟨h, by simp [fpsStep, h]⟩
    · exact Or.inl (by simp [fpsStep, h])
  · intro st now hne
    by_contra h
    exact hne (by simp [fpsStep, h])
  · intro w f readings now hall hnow
    rw [fpsRun_counts w f readings 0 hall]
    simp [fpsStep, hnow]

/-- Witness for C22: a frame sent from the connected state at 1200 ms, and a
parsed success response handled at 1200 ms. -/
theorem fps_step_witness :
    Demo.canSend (Demo.connected 0) = true ∧
    Http.startsRequest (Http.answered (Demo.echo "1") 1200).blob (Http.analyzing 0) = true ∧
    Demo.fpsState (Demo.sendFrame (Demo.captureAt 1200) (Demo.connected 0)).1
      = fpsStep (Demo.fpsState (Demo.connected 0)) (Demo.captureAt 1200).fpsClock :=
  ⟨rfl, by simp [Http.startsRequest, Http.analyzing, Http.answered],
   (fps_step (Demo.captureAt 1200) (Demo.connected 0) none "lower_back"
      (Http.answered (Demo.echo "1") 1200) (Http.analyzing 0) 200 "" (Demo.echo "1")
      rfl rfl (by simp [Http.startsRequest, Http.analyzing, Http.answered]) rfl
      (by decide)).2.2.1⟩

end RomAnalysis
